import Mathlib

/-!
Shallow embedding of the HomeNode DCAD scraper core: the value-normalization
layer (backup/dcad/normalize.py), the detail-page field extractors
(scraper/dcad/parse_detail.py and dcad-scraper/scraper/dcad/parse_detail.py)
and the paginated address-search walker (scraper/api/main.py).

Strings are modelled as Lean String over their character lists; Python's
decimal.Decimal values are modelled exactly by the inductive type PyDec
below.  HTML documents are modelled at the table level: a table is a list
of rows, a row a list of cells carrying their text, their tag kind
(th or td) and their class attribute; the DOM-walking section locators,
which operate on tree structure that a flat table model cannot carry, are
abstracted by passing the located table (or none) as an argument to each
section parser.
-/

/-- ASCII whitespace, as matched by the regex class \s and str.strip in
Python for the ASCII inputs handled here (space, tab, newline, carriage
return, vertical tab, form feed). -/
def pyIsSpace (c : Char) : Bool :=
  c = ' ' || c = '\t' || c = '\n' || c = '\r' || c = Char.ofNat 11 || c = Char.ofNat 12

/-- The substitution re.sub(r"\s+", " ", s): every maximal whitespace run
becomes a single space.  The flag records whether the previous character
belonged to a whitespace run already emitted as its single space. -/
def collapseGo (prevSpace : Bool) : List Char → List Char
  | [] => []
  | c :: cs =>
    if pyIsSpace c then
      if prevSpace then collapseGo true cs else ' ' :: collapseGo true cs
    else c :: collapseGo false cs

def collapseWS (l : List Char) : List Char := collapseGo false l

/-- str.strip(): drop leading and trailing whitespace. -/
def stripList (l : List Char) : List Char :=
  ((l.dropWhile pyIsSpace).reverse.dropWhile pyIsSpace).reverse

/-- normalize.clean_text: re.sub(r"\s+", " ", s or "").strip(). -/
def clean_text (s : String) : String :=
  String.mk (stripList (collapseWS s.data))

/-- str.upper for the ASCII range (all inputs handled here are ASCII). -/
def asciiUpperChar (c : Char) : Char :=
  if 'a' ≤ c ∧ c ≤ 'z' then Char.ofNat (c.toNat - 32) else c

/-- str.lower for the ASCII range. -/
def asciiLowerChar (c : Char) : Char :=
  if 'A' ≤ c ∧ c ≤ 'Z' then Char.ofNat (c.toNat + 32) else c

def asciiUpper (s : String) : String := String.mk (s.data.map asciiUpperChar)

def asciiLower (s : String) : String := String.mk (s.data.map asciiLowerChar)

/-- The ASCII decimal digits, as matched by the regex class \d. -/
def pyIsDigit (c : Char) : Bool :=
  c ∈ ['0', '1', '2', '3', '4', '5', '6', '7', '8', '9']

def digitVal (c : Char) : Nat := c.toNat - 48

/-- Value of a big-endian ASCII digit string. -/
def digitsToNat (l : List Char) : Nat :=
  l.foldl (fun a c => 10 * a + digitVal c) 0

/-- str.replace(b, "") for a single character b: remove every occurrence. -/
def removeChar (b : Char) (l : List Char) : List Char :=
  l.filter (fun c => c ≠ b)

/-- str.replace(pat, "") for a multi-character pattern: remove occurrences
left to right, non-overlapping, resuming after each removed occurrence.
The fuel argument, initialized to the list length (which bounds the number
of steps), makes the recursion structural. -/
def removeSubstrAux (pat : List Char) : Nat → List Char → List Char
  | _, [] => []
  | 0, l => l
  | fuel + 1, c :: cs =>
    if pat ≠ [] ∧ pat.isPrefixOf (c :: cs) then
      removeSubstrAux pat fuel ((c :: cs).drop pat.length)
    else c :: removeSubstrAux pat fuel cs

def removeSubstr (pat : List Char) (l : List Char) : List Char :=
  removeSubstrAux pat l.length l

/-- Python's substring containment test (pat in s). -/
def containsSub (pat : List Char) : List Char → Bool
  | [] => decide (pat = [])
  | c :: cs => pat.isPrefixOf (c :: cs) || containsSub pat cs

/-- String-level substring containment: strContains hay pat models
(pat in hay) in Python. -/
def strContains (hay pat : String) : Bool := containsSub pat.data hay.data

/-- Split at the first character satisfying p: returns the prefix before it
and, when it occurs, the remainder after it. -/
def splitFirst (p : Char → Bool) : List Char → List Char × Option (List Char)
  | [] => ([], none)
  | c :: cs =>
    if p c then ([], some cs)
    else
      let r := splitFirst p cs
      (c :: r.1, r.2)

/-- A Python decimal.Decimal value: finite values are an exact
sign / coefficient / power-of-ten exponent triple; the special values
NaN and signed infinity are separate constructors. -/
inductive PyDec where
  | num (neg : Bool) (coeff : Nat) (exp : Int)
  | inf (neg : Bool)
  | nan
deriving DecidableEq

/-- Optional leading sign of a numeric string. -/
def parseSign (l : List Char) : Bool × List Char :=
  match l with
  | [] => (false, [])
  | c :: cs =>
    if c = '-' then (true, cs)
    else if c = '+' then (false, cs)
    else (false, c :: cs)

/-- digits [. digits] with at least one digit overall: returns the
coefficient digits' value and the number of fractional digits. -/
def parseMantissa (l : List Char) : Option (Nat × Nat) :=
  match splitFirst (fun c => c = '.') l with
  | (_, none) =>
    if l ≠ [] ∧ l.all pyIsDigit then some (digitsToNat l, 0) else none
  | (ip, some fp) =>
    if (ip ++ fp) ≠ [] ∧ ip.all pyIsDigit ∧ fp.all pyIsDigit then
      some (digitsToNat (ip ++ fp), fp.length)
    else none

/-- The numeric-string grammar of decimal.Decimal after sign removal and
lowercasing: infinity, NaN (with optional digit payload), or
digits[.digits][e[sign]digits]. -/
def parseDecimalAfterSign (neg : Bool) (cs : List Char) : Option PyDec :=
  if cs = "inf".data ∨ cs = "infinity".data then some (.inf neg)
  else if cs.take 3 = "nan".data ∧ (cs.drop 3).all pyIsDigit then some .nan
  else if cs.take 4 = "snan".data ∧ (cs.drop 4).all pyIsDigit then some .nan
  else
    match splitFirst (fun c => c = 'e') cs with
    | (mant, none) =>
      match parseMantissa mant with
      | some cf => some (.num neg cf.1 (-(cf.2 : Int)))
      | none => none
    | (mant, some es) =>
      match parseMantissa mant with
      | some cf =>
        let se := parseSign es
        if se.2 ≠ [] ∧ se.2.all pyIsDigit then
          let ev : Int := if se.1 then -((digitsToNat se.2 : Int)) else (digitsToNat se.2 : Int)
          some (.num neg cf.1 (ev - (cf.2 : Int)))
        else none
      | none => none

/-- decimal.Decimal(s) on a string: surrounding whitespace is stripped,
the grammar is case-insensitive; an ill-formed string is a parse failure
(InvalidOperation in Python, none here). -/
def parseDecimal (s : String) : Option PyDec :=
  let l := (stripList s.data).map asciiLowerChar
  let sn := parseSign l
  parseDecimalAfterSign sn.1 sn.2

/-- normalize.to_num: clean the text, delete commas and percent signs,
return None for the sentinels "", "n/a", "na", "-", "none"
(case-insensitively), else Decimal(s) with any parse error mapped to
None by the bare except. -/
def to_num (s : String) : Option PyDec :=
  let s1 := String.mk (removeChar '%' (removeChar ',' (clean_text s).data))
  if asciiLower s1 ∈ (["", "n/a", "na", "-", "none"] : List String) then none
  else parseDecimal s1

/-- normalize.to_bool: cleaned, lowercased membership in {y, yes, true, 1}. -/
def to_bool (s : String) : Bool :=
  decide (asciiLower (clean_text s) ∈ (["y", "yes", "true", "1"] : List String))

/-- normalize.to_sqft: clean, lowercase, delete "sqft" then "sf", then to_num. -/
def to_sqft (s : String) : Option PyDec :=
  to_num (String.mk (removeSubstr "sf".data (removeSubstr "sqft".data (asciiLower (clean_text s)).data)))

/-- normalize.pct_to_num: clean, delete "%", then to_num. -/
def pct_to_num (s : String) : Option PyDec :=
  to_num (String.mk (removeChar '%' (clean_text s).data))

/-- Characters kept by _money_to_num's re.sub(r"[^0-9\.\-]", "", s). -/
def moneyKeepChar (c : Char) : Bool := pyIsDigit c || c = '.' || c = '-'

/-- parse_detail._money_to_num (dcad-scraper copy): strip, None for empty
or "N/A", delete every character outside [0-9.-], None for the residues
"", "-", ".", "-.", else float(cleaned) with ValueError mapped to None.
float(s) follows the same numeric grammar as Decimal on the character
set [0-9.-] that survives the cleaning, but float is a binary double:
this exact model is faithful only for integer values of magnitude below
2^53, the bound every theorem about re-parsed money values carries. -/
def money_to_num (s : Option String) : Option PyDec :=
  match s with
  | none => none
  | some s0 =>
    let s1 := String.mk (stripList s0.data)
    if s1 = "" ∨ asciiUpper s1 = "N/A" then none
    else
      let cleaned := String.mk (s1.data.filter moneyKeepChar)
      if cleaned ∈ (["", "-", ".", "-."] : List String) then none
      else parseDecimal cleaned

/-- parse_detail.map_yn_to_none: the tri-state yes/no normalizer.  None
becomes "N/A"; the cleaned, uppercased token is mapped to "NONE" for the
explicit negative tokens, to "Y" for the positive tokens, and any other
token passes through uppercased ("val or N/A" can only yield "N/A" again
for the empty token, which the negative set already caught). -/
def map_yn_to_none (s : Option String) : String :=
  match s with
  | none => "N/A"
  | some s0 =>
    let val := asciiUpper (clean_text s0)
    if val ∈ (["N", "NO", "FALSE", "NONE", "UNASSIGNED", ""] : List String) then "NONE"
    else if val ∈ (["Y", "YES", "TRUE", "1"] : List String) then "Y"
    else if val = "" then "N/A" else val

/-- Big-endian decimal digit rendering of a natural number, as produced
by str() / format() in Python.  The fuel argument (initialized to the
number itself, which dominates its digit count) makes the recursion
structural. -/
def natToDigitsAux : Nat → Nat → List Char
  | 0, n => [Char.ofNat (48 + n % 10)]
  | fuel + 1, n =>
    if n < 10 then [Char.ofNat (48 + n)]
    else natToDigitsAux fuel (n / 10) ++ [Char.ofNat (48 + n % 10)]

def natToDigits (n : Nat) : List Char := natToDigitsAux n n

/-- str() of a Python int. -/
def intToString (i : Int) : String :=
  if i < 0 then String.mk ('-' :: natToDigits i.natAbs) else String.mk (natToDigits i.natAbs)

/-! ### The tri-state yes/no normalizer (claim C3) -/

/-- The negative tokens of map_yn_to_none. -/
def ynNegTokens : List String := ["N", "NO", "FALSE", "NONE", "UNASSIGNED", ""]

/-- The positive tokens of map_yn_to_none. -/
def ynPosTokens : List String := ["Y", "YES", "TRUE", "1"]

/-- The if-chain of map_yn_to_none over the cleaned, uppercased token. -/
def ynChain (u : String) : String :=
  if u ∈ ynNegTokens then "NONE"
  else if u ∈ ynPosTokens then "Y"
  else if u = "" then "N/A" else u

theorem map_yn_to_none_eq_ynChain (s : String) :
    map_yn_to_none (some s) = ynChain (asciiUpper (clean_text s)) := rfl

theorem ynChain_neg (u : String) (h : u ∈ ynNegTokens) : ynChain u = "NONE" := by
  simp [ynChain, h]

theorem ynChain_pos (u : String) (h : u ∈ ynPosTokens) : ynChain u = "Y" := by
  have hneg : u ∉ ynNegTokens := by
    simp only [ynPosTokens, List.mem_cons, List.not_mem_nil, or_false] at h
    rcases h with rfl | rfl | rfl | rfl <;> decide
  simp [ynChain, hneg, h]

theorem ynChain_other (u : String) (h : u ∉ ynNegTokens) (h2 : u ∉ ynPosTokens) :
    ynChain u = u := by
  have hne : u ≠ "" := fun he => h (by simp [ynNegTokens, he])
  simp [ynChain, h, h2, hne]

/-- C3: the tri-state normalizer map_yn_to_none maps each of Y, YES, TRUE, 1
(case-insensitively, after whitespace collapsing) to the true value "Y"; maps
each of N, NO, NONE, FALSE, UNASSIGNED and the empty string to the
false-marker "NONE"; maps N/A (like an absent value) to the none-marker
"N/A"; and passes any other token through uppercased as the unknown-value
escape hatch.  to_bool likewise accepts exactly the positive tokens.  Both
functions are total, so no input raises. -/
theorem C3_tristate_normalizer (s : String) :
    (asciiUpper (clean_text s) ∈ ynPosTokens → map_yn_to_none (some s) = "Y") ∧
    (asciiUpper (clean_text s) ∈ ynNegTokens → map_yn_to_none (some s) = "NONE") ∧
    (asciiUpper (clean_text s) = "N/A" → map_yn_to_none (some s) = "N/A") ∧
    map_yn_to_none none = "N/A" ∧
    (asciiUpper (clean_text s) ∉ ynNegTokens → asciiUpper (clean_text s) ∉ ynPosTokens →
      map_yn_to_none (some s) = asciiUpper (clean_text s)) ∧
    (asciiLower (clean_text s) ∈ (["y", "yes", "true", "1"] : List String) → to_bool s = true) ∧
    (asciiLower (clean_text s) ∉ (["y", "yes", "true", "1"] : List String) → to_bool s = false) := by
  refine ⟨?_, ?_, ?_, rfl, ?_, ?_, ?_⟩
  · intro h
    rw [map_yn_to_none_eq_ynChain]
    exact ynChain_pos _ h
  · intro h
    rw [map_yn_to_none_eq_ynChain]
    exact ynChain_neg _ h
  · intro h
    rw [map_yn_to_none_eq_ynChain, h]
    have h1 : ("N/A" : String) ∉ ynNegTokens := by decide
    have h2 : ("N/A" : String) ∉ ynPosTokens := by decide
    exact ynChain_other _ h1 h2
  · intro h1 h2
    rw [map_yn_to_none_eq_ynChain]
    exact ynChain_other _ h1 h2
  · intro h
    simp [to_bool, h]
  · intro h
    simp [to_bool, h]

/-- Concrete instantiation of C3_tristate_normalizer at the input " yes ". -/
theorem C3_tristate_normalizer_witness :
    map_yn_to_none (some " yes ") = "Y" := by
  exact (C3_tristate_normalizer " yes ").1 (by decide)

/-! ### The area backfill chain (claim C6) -/

/-- The three area fields of the primary-improvement record in the
dcad-scraper copy of parse_detail.py. -/
structure AreaRec where
  total_living_area : Option Int
  total_area_sqft : Option Int
  living_area_sqft : Option Int
deriving DecidableEq

/-- The backfill chain of _extract_primary_improvements (lines 307-312)
and parse_detail (lines 608-615), which share this exact logic: when
total_living_area is None, adopt total_area_sqft when set, else
living_area_sqft when set. -/
def backfill_total_living_area (d : AreaRec) : AreaRec :=
  if d.total_living_area = none then
    match d.total_area_sqft with
    | some ta => { d with total_living_area := some ta }
    | none =>
      match d.living_area_sqft with
      | some la => { d with total_living_area := some la }
      | none => d
  else d

/-- _area_to_int in _extract_primary_improvements: falsy input is None,
else delete every character outside [0-9-] and parse as int, mapping a
residue of "" or "-" and any ValueError to None. -/
def pyIntParse (l : List Char) : Option Int :=
  match parseSign l with
  | (neg, ds) =>
    if ds ≠ [] ∧ ds.all pyIsDigit then
      some (if neg then -(digitsToNat ds : Int) else (digitsToNat ds : Int))
    else none

def area_to_int (s : Option String) : Option Int :=
  match s with
  | none => none
  | some s0 =>
    if s0 = "" then none
    else
      let cleaned := s0.data.filter (fun c => pyIsDigit c || c = '-')
      if String.mk cleaned ∈ (["", "-"] : List String) then none
      else pyIntParse cleaned

/-- C6: in the assembled primary-improvement record, an absent
total_living_area is backfilled from total_area_sqft when that is present,
else from living_area_sqft: total_area_sqft = None with
living_area_sqft = 1800 yields 1800, both None yields None, a present
total_area_sqft always wins, and a directly extracted total_living_area
is never overwritten by the backfill. -/
theorem C6_area_backfill_chain (v t : Int) (ta la : Option Int) :
    (backfill_total_living_area ⟨none, none, some 1800⟩).total_living_area = some 1800 ∧
    (backfill_total_living_area ⟨none, none, none⟩).total_living_area = none ∧
    (backfill_total_living_area ⟨none, some t, la⟩).total_living_area = some t ∧
    backfill_total_living_area ⟨some v, ta, la⟩ = ⟨some v, ta, la⟩ := by
  refine ⟨rfl, rfl, rfl, ?_⟩
  simp [backfill_total_living_area]

/-! ### Name resolution for the history block of parse_detail_html (claim C10) -/

/-- The names bound at module level in scraper/dcad/parse_detail.py: the
imported names (import re; typing; bs4; from .normalize import ...; the
future-statement binding), the module constants, and every top-level def,
in source order.  None of the history-section parsers
parse_history_market_value / parse_history_taxable_value /
parse_history_exemptions is among them (and none is a Python builtin). -/
def parse_detail_module_names : List String :=
  ["annotations", "re", "Any", "Dict", "List", "Optional",
   "BeautifulSoup", "Tag", "NavigableString",
   "clean_text", "to_bool", "to_num", "to_sqft", "pct_to_num",
   "PARSER_VERSION",
   "get_any", "_headers_lower", "_txt", "_num_or_na",
   "_NAV_WORDS", "_is_nav_like_table", "_is_land_like_table",
   "_is_main_impr_table", "_is_addl_impr_table",
   "_find_after_header_span", "_table_after_heading", "_find_heading_table",
   "parse_keyvalue_table", "_stories_to_number", "map_yn_to_none",
   "_parse_baths_full_half",
   "_MAIN_HEADING_PHRASES", "_resolve_main_improvement_table",
   "_find_best_main_by_content", "parse_main_improvement",
   "_resolve_additional_improvements_table", "parse_additional_improvements",
   "parse_land_detail_from_table", "parse_land_detail",
   "parse_exemptions_sections", "parse_estimated_taxes",
   "_history_find_section_table", "_iter_direct_cells",
   "parse_history_owner_table", "parse_exemption_details",
   "parse_property_location", "parse_owner", "parse_legal_description",
   "parse_value_summary", "parse_arb_hearing", "parse_detail_html"]

/-- The function names called by the history branch of parse_detail_html
(lines 1133-1136), in execution order. -/
def history_block_calls : List String :=
  ["parse_history_owner_table", "parse_history_market_value",
   "parse_history_taxable_value", "parse_history_exemptions"]

/-- First name in the call sequence that does not resolve against the
module's global namespace: Python raises NameError there. -/
def firstUnresolvedCall : List String → Option String
  | [] => none
  | n :: ns => if n ∈ parse_detail_module_names then firstUnresolvedCall ns else some n

inductive HistoryOutcome where
  /-- history_html is None or empty: the default history block is kept. -/
  | defaults
  /-- an uncaught NameError escapes from the named call. -/
  | nameError (n : String)
  /-- every call resolves and the populated history block is built. -/
  | produced
deriving DecidableEq

/-- The fate of the history block in parse_detail_html: the branch guarded
by "if history_html:" runs the four history parser calls in order and
raises NameError at the first name that does not resolve. -/
def history_block_outcome (history_html : Option String) : HistoryOutcome :=
  match history_html with
  | none => .defaults
  | some h =>
    if h = "" then .defaults
    else
      match firstUnresolvedCall history_block_calls with
      | some n => .nameError n
      | none => .produced

/-- C10: for every non-None, non-empty history_html, parse_detail_html's
history branch raises an uncaught NameError — parse_history_owner_table
resolves but parse_history_market_value (and likewise
parse_history_taxable_value, parse_history_exemptions) is defined nowhere
in the module and not imported — so the populated history block is only
avoided-crash when history_html is None or empty, where the defaults are
kept. -/
theorem C10_history_block_name_error (h : String) (hne : h ≠ "") :
    history_block_outcome (some h) = .nameError "parse_history_market_value" ∧
    history_block_outcome none = .defaults ∧
    history_block_outcome (some "") = .defaults ∧
    "parse_history_owner_table" ∈ parse_detail_module_names ∧
    "parse_history_market_value" ∉ parse_detail_module_names ∧
    "parse_history_taxable_value" ∉ parse_detail_module_names ∧
    "parse_history_exemptions" ∉ parse_detail_module_names := by
  refine ⟨?_, rfl, by decide, by decide, by decide, by decide, by decide⟩
  have hcalls : firstUnresolvedCall history_block_calls =
      some "parse_history_market_value" := by decide
  simp [history_block_outcome, hne, hcalls]

/-- Concrete instantiation of C10_history_block_name_error at a non-empty
history page. -/
theorem C10_history_block_name_error_witness :
    history_block_outcome (some "<html><body>history</body></html>") =
      .nameError "parse_history_market_value" :=
  (C10_history_block_name_error "<html><body>history</body></html>" (by decide)).1

/-! ### Digit-string lemmas: exact parsing of comma-separated numerals -/

theorem pyIsDigit_cases {c : Char} (h : pyIsDigit c = true) :
    c = '0' ∨ c = '1' ∨ c = '2' ∨ c = '3' ∨ c = '4' ∨
    c = '5' ∨ c = '6' ∨ c = '7' ∨ c = '8' ∨ c = '9' := by
  have h2 : c ∈ ['0', '1', '2', '3', '4', '5', '6', '7', '8', '9'] :=
    of_decide_eq_true h
  simpa using h2

/-- The character-level facts needed about ASCII digits downstream. -/
theorem digit_char_facts {c : Char} (h : pyIsDigit c = true) :
    pyIsSpace c = false ∧ asciiLowerChar c = c ∧ asciiUpperChar c = c ∧
    c ≠ ',' ∧ c ≠ '%' ∧ c ≠ '-' ∧ c ≠ '+' ∧ c ≠ '.' ∧ c ≠ 'e' ∧
    c ≠ '$' ∧ c ≠ 'i' ∧ c ≠ 'n' ∧ c ≠ 's' ∧ moneyKeepChar c = true := by
  rcases pyIsDigit_cases h with rfl | rfl | rfl | rfl | rfl | rfl | rfl | rfl | rfl | rfl <;>
    refine ⟨by decide, by decide, by decide, by decide, by decide, by decide, by decide,
      by decide, by decide, by decide, by decide, by decide, by decide, by decide⟩

theorem dropWhile_no_space {l : List Char} (h : ∀ c ∈ l, pyIsSpace c = false) :
    l.dropWhile pyIsSpace = l := by
  cases l with
  | nil => rfl
  | cons c cs => simp [List.dropWhile_cons, h c (by simp)]

theorem stripList_no_space {l : List Char} (h : ∀ c ∈ l, pyIsSpace c = false) :
    stripList l = l := by
  unfold stripList
  rw [dropWhile_no_space h,
    dropWhile_no_space (fun c hc => h c (List.mem_reverse.mp hc)),
    List.reverse_reverse]

theorem collapseGo_no_space {l : List Char} (h : ∀ c ∈ l, pyIsSpace c = false) (b : Bool) :
    collapseGo b l = l := by
  induction l generalizing b with
  | nil => rfl
  | cons c cs ih =>
    have hc := h c (by simp)
    simp [collapseGo, hc, ih (fun d hd => h d (by simp [hd]))]

theorem clean_text_no_space {l : List Char} (h : ∀ c ∈ l, pyIsSpace c = false) :
    clean_text (String.mk l) = String.mk l := by
  unfold clean_text collapseWS
  rw [show (String.mk l).data = l from rfl, collapseGo_no_space h, stripList_no_space h]

theorem digitsToNat_append_singleton (l : List Char) (c : Char) :
    digitsToNat (l ++ [c]) = 10 * digitsToNat l + digitVal c := by
  unfold digitsToNat
  rw [List.foldl_append]
  rfl

theorem natToDigitsAux_spec :
    ∀ fuel n, n ≤ fuel →
      digitsToNat (natToDigitsAux fuel n) = n ∧
      (∀ c ∈ natToDigitsAux fuel n, pyIsDigit c = true) ∧
      natToDigitsAux fuel n ≠ [] := by
  intro fuel
  induction fuel with
  | zero =>
    intro n hn
    have h0 : n = 0 := Nat.le_zero.mp hn
    subst h0
    exact ⟨by decide, by decide, by decide⟩
  | succ fuel ih =>
    intro n hn
    by_cases h10 : n < 10
    · have heq : natToDigitsAux (fuel + 1) n = [Char.ofNat (48 + n)] := by
        simp [natToDigitsAux, h10]
      rw [heq]
      interval_cases n <;> exact ⟨by decide, by decide, by decide⟩
    · have heq : natToDigitsAux (fuel + 1) n =
          natToDigitsAux fuel (n / 10) ++ [Char.ofNat (48 + n % 10)] := by
        simp [natToDigitsAux, h10]
      have hle : n / 10 ≤ fuel := by omega
      obtain ⟨h1, h2, _⟩ := ih (n / 10) hle
      have hm : n % 10 < 10 := by omega
      have hv : digitVal (Char.ofNat (48 + n % 10)) = n % 10 ∧
          pyIsDigit (Char.ofNat (48 + n % 10)) = true := by
        generalize n % 10 = m at hm
        interval_cases m <;> exact ⟨by decide, by decide⟩
      refine ⟨?_, ?_, by simp [heq]⟩
      · rw [heq, digitsToNat_append_singleton, h1, hv.1]
        omega
      · intro c hc
        rw [heq] at hc
        rcases List.mem_append.mp hc with hc | hc
        · exact h2 c hc
        · have hce : c = Char.ofNat (48 + n % 10) := by simpa using hc
          rw [hce]
          exact hv.2

theorem natToDigits_spec (n : Nat) :
    digitsToNat (natToDigits n) = n ∧
    (∀ c ∈ natToDigits n, pyIsDigit c = true) ∧
    natToDigits n ≠ [] :=
  natToDigitsAux_spec n n le_rfl

theorem splitFirst_eq_self {p : Char → Bool} {l : List Char}
    (h : ∀ c ∈ l, p c = false) :
    splitFirst p l = (l, none) := by
  induction l with
  | nil => rfl
  | cons c cs ih =>
    have hc := h c (by simp)
    simp [splitFirst, hc, ih (fun d hd => h d (by simp [hd]))]

theorem parseMantissa_digits {l : List Char} (hne : l ≠ [])
    (hd : ∀ c ∈ l, pyIsDigit c = true) :
    parseMantissa l = some (digitsToNat l, 0) := by
  unfold parseMantissa
  rw [splitFirst_eq_self (fun c hc => by
    have := (digit_char_facts (hd c hc)).2.2.2.2.2.2.2.1
    simpa using this)]
  simp [hne, List.all_eq_true.mpr hd]

theorem parseDecimalAfterSign_digits {l : List Char} (hne : l ≠ [])
    (hd : ∀ c ∈ l, pyIsDigit c = true) :
    parseDecimalAfterSign false l = some (.num false (digitsToNat l) 0) := by
  obtain ⟨c, cs, rfl⟩ : ∃ c cs, l = c :: cs := by
    cases l with
    | nil => exact absurd rfl hne
    | cons c cs => exact ⟨c, cs, rfl⟩
  have hc := hd c (by simp)
  have hf := digit_char_facts hc
  unfold parseDecimalAfterSign
  rw [if_neg, if_neg, if_neg]
  · rw [splitFirst_eq_self (fun d hdm => by
      have := (digit_char_facts (hd d hdm)).2.2.2.2.2.2.2.2.1
      simpa using this)]
    simp [parseMantissa_digits hne hd]
  · intro hcon
    obtain ⟨h1, -⟩ := hcon
    have : c = 's' := by
      have h2 : (c :: cs).take 4 = c :: cs.take 3 := rfl
      rw [h2] at h1
      have h3 : "snan".data = ['s', 'n', 'a', 'n'] := rfl
      rw [h3] at h1
      exact (List.cons.injEq _ _ _ _).mp h1 |>.1
    exact hf.2.2.2.2.2.2.2.2.2.2.2.2.1 this
  · intro hcon
    obtain ⟨h1, -⟩ := hcon
    have : c = 'n' := by
      have h2 : (c :: cs).take 3 = c :: cs.take 2 := rfl
      rw [h2] at h1
      have h3 : "nan".data = ['n', 'a', 'n'] := rfl
      rw [h3] at h1
      exact (List.cons.injEq _ _ _ _).mp h1 |>.1
    exact hf.2.2.2.2.2.2.2.2.2.2.2.1 this
  · intro hcon
    have : c = 'i' := by
      rcases hcon with h1 | h1
      · have h3 : "inf".data = ['i', 'n', 'f'] := rfl
        rw [h3] at h1
        exact (List.cons.injEq _ _ _ _).mp h1 |>.1
      · have h3 : "infinity".data = ['i', 'n', 'f', 'i', 'n', 'i', 't', 'y'] := rfl
        rw [h3] at h1
        exact (List.cons.injEq _ _ _ _).mp h1 |>.1
    exact hf.2.2.2.2.2.2.2.2.2.2.1 this

theorem parseDecimal_digits {l : List Char} (hne : l ≠ [])
    (hd : ∀ c ∈ l, pyIsDigit c = true) :
    parseDecimal (String.mk l) = some (.num false (digitsToNat l) 0) := by
  unfold parseDecimal
  rw [show (String.mk l).data = l from rfl,
    stripList_no_space (fun c hc => (digit_char_facts (hd c hc)).1)]
  have hmap : l.map asciiLowerChar = l := by
    have : l.map asciiLowerChar = l.map id :=
      List.map_congr_left (fun c hc => (digit_char_facts (hd c hc)).2.1)
    simpa using this
  rw [hmap]
  obtain ⟨c, cs, rfl⟩ : ∃ c cs, l = c :: cs := by
    cases l with
    | nil => exact absurd rfl hne
    | cons c cs => exact ⟨c, cs, rfl⟩
  have hf := digit_char_facts (hd c (by simp))
  have hsign : parseSign (c :: cs) = (false, c :: cs) := by
    simp [parseSign, hf.2.2.2.2.2.1, hf.2.2.2.2.2.2.1]
  simp only [hsign]
  exact parseDecimalAfterSign_digits hne hd

/-! ### Comma grouping: the format spec ",.0f" on integer values -/

/-- Insert "," after every three characters, working on the reversed digit
list (i.e. grouping from the right in the original). -/
def commaGroupRev : List Char → List Char
  | a :: b :: c :: d :: rest => a :: b :: c :: ',' :: commaGroupRev (d :: rest)
  | l => l

/-- Thousands grouping of a digit string, as the format spec "," does. -/
def commaGroup (ds : List Char) : List Char := (commaGroupRev ds.reverse).reverse

theorem commaGroupRev_filter (p : Char → Bool) (hp : p ',' = false) :
    ∀ n (l : List Char), l.length ≤ n →
      (commaGroupRev l).filter p = l.filter p := by
  intro n
  induction n with
  | zero =>
    intro l hl
    have h0 : l = [] := List.length_eq_zero.mp (Nat.le_zero.mp hl)
    subst h0
    rfl
  | succ n ih =>
    intro l hl
    rcases l with _ | ⟨a, _ | ⟨b, _ | ⟨c, _ | ⟨d, rest⟩⟩⟩⟩
    · rfl
    · rfl
    · rfl
    · rfl
    · have heq : commaGroupRev (a :: b :: c :: d :: rest) =
          a :: b :: c :: ',' :: commaGroupRev (d :: rest) := rfl
      have hlen : (d :: rest).length ≤ n := by
        simp only [List.length_cons] at hl ⊢
        omega
      rw [heq]
      simp only [List.filter_cons]
      rw [ih (d :: rest) hlen]
      simp [hp, List.filter_cons]

theorem commaGroup_filter (p : Char → Bool) (hp : p ',' = false) (ds : List Char) :
    (commaGroup ds).filter p = ds.filter p := by
  unfold commaGroup
  rw [List.filter_reverse, commaGroupRev_filter p hp ds.reverse.length ds.reverse le_rfl,
    List.filter_reverse, List.reverse_reverse]

theorem commaGroupRev_mem :
    ∀ n (l : List Char), l.length ≤ n →
      ∀ c ∈ commaGroupRev l, c ∈ l ∨ c = ',' := by
  intro n
  induction n with
  | zero =>
    intro l hl
    have h0 : l = [] := List.length_eq_zero.mp (Nat.le_zero.mp hl)
    subst h0
    simp [commaGroupRev]
  | succ n ih =>
    intro l hl
    rcases l with _ | ⟨a, _ | ⟨b, _ | ⟨c0, _ | ⟨d, rest⟩⟩⟩⟩
    · simp [commaGroupRev]
    · simp [commaGroupRev]
    · simp [commaGroupRev]
    · simp [commaGroupRev]
    · have heq : commaGroupRev (a :: b :: c0 :: d :: rest) =
          a :: b :: c0 :: ',' :: commaGroupRev (d :: rest) := rfl
      have hlen : (d :: rest).length ≤ n := by
        simp only [List.length_cons] at hl ⊢
        omega
      intro c hc
      rw [heq] at hc
      simp only [List.mem_cons] at hc
      rcases hc with rfl | rfl | rfl | rfl | hc
      · simp
      · simp
      · simp
      · right; rfl
      · rcases ih (d :: rest) hlen c hc with h | h
        · left
          simp only [List.mem_cons] at h ⊢
          tauto
        · right; exact h

theorem commaGroup_mem (ds : List Char) :
    ∀ c ∈ commaGroup ds, c ∈ ds ∨ c = ',' := by
  intro c hc
  unfold commaGroup at hc
  have hc2 := List.mem_reverse.mp hc
  rcases commaGroupRev_mem ds.reverse.length ds.reverse le_rfl c hc2 with h | h
  · left; exact List.mem_reverse.mp h
  · right; exact h

/-- The f-string f"${v:,.0f}" of parse_value_summary applied to an integer
value v: a dollar sign, the sign, and the comma-grouped digits.  Python
routes the int through a float for the "f" spec, which rounds magnitudes
at and above 2^53 and raises OverflowError near 309 digits; this exact
digit rendering is therefore faithful only below 2^53, the bound every
theorem about formatted money values carries as a hypothesis. -/
def dollarFormat (i : Int) : String :=
  if i < 0 then String.mk ('$' :: '-' :: commaGroup (natToDigits i.natAbs))
  else String.mk ('$' :: commaGroup (natToDigits i.natAbs))

theorem money_to_num_dollarFormat (n : Nat) :
    money_to_num (some (dollarFormat (n : Int))) = some (.num false n 0) := by
  obtain ⟨hval, hdig, hne⟩ := natToDigits_spec n
  have hnn : ¬ ((n : Int) < 0) := by omega
  have hform : dollarFormat (n : Int) = String.mk ('$' :: commaGroup (natToDigits n)) := by
    unfold dollarFormat
    rw [if_neg hnn]
    rfl
  rw [hform]
  have hmem : ∀ c ∈ '$' :: commaGroup (natToDigits n), pyIsSpace c = false := by
    intro c hc
    rcases List.mem_cons.mp hc with rfl | hc
    · decide
    · rcases commaGroup_mem _ c hc with h | rfl
      · exact (digit_char_facts (hdig c h)).1
      · decide
  have hstrip : stripList ('$' :: commaGroup (natToDigits n)) =
      '$' :: commaGroup (natToDigits n) := stripList_no_space hmem
  have hA : String.mk ('$' :: commaGroup (natToDigits n)) ≠ "" := by
    intro h
    have h1 := congrArg String.data h
    simp at h1
  have hB : asciiUpper (String.mk ('$' :: commaGroup (natToDigits n))) ≠ "N/A" := by
    intro h
    have h1 := congrArg String.data h
    have h2 : asciiUpperChar '$' :: (commaGroup (natToDigits n)).map asciiUpperChar =
        ['N', '/', 'A'] := h1
    have h3 : asciiUpperChar '$' = 'N' := ((List.cons.injEq _ _ _ _).mp h2).1
    exact absurd h3 (by decide)
  have hfil : ('$' :: commaGroup (natToDigits n)).filter moneyKeepChar =
      natToDigits n := by
    rw [List.filter_cons]
    have hdollar : moneyKeepChar '$' = false := by decide
    rw [hdollar]
    simp only [Bool.false_eq_true, if_false]
    rw [commaGroup_filter moneyKeepChar (by decide)]
    exact List.filter_eq_self.mpr
      (fun c hc => (digit_char_facts (hdig c hc)).2.2.2.2.2.2.2.2.2.2.2.2.2)
  have hsent : String.mk (natToDigits n) ∉ (["", "-", ".", "-."] : List String) := by
    obtain ⟨d, tl, hdt⟩ : ∃ d tl, natToDigits n = d :: tl := by
      cases hnd : natToDigits n with
      | nil => exact absurd hnd hne
      | cons d tl => exact ⟨d, tl, rfl⟩
    have hdd : pyIsDigit d = true := hdig d (by rw [hdt]; simp)
    have hfacts := digit_char_facts hdd
    rw [hdt]
    intro hmem2
    simp only [List.mem_cons, List.not_mem_nil, or_false] at hmem2
    rcases hmem2 with h | h | h | h
    · have h1 := congrArg String.data h
      simp at h1
    · have h1 := congrArg String.data h
      have h2 : d :: tl = ['-'] := h1
      exact hfacts.2.2.2.2.2.1 ((List.cons.injEq _ _ _ _).mp h2).1
    · have h1 := congrArg String.data h
      have h2 : d :: tl = ['.'] := h1
      exact hfacts.2.2.2.2.2.2.2.1 ((List.cons.injEq _ _ _ _).mp h2).1
    · have h1 := congrArg String.data h
      have h2 : d :: tl = ['-', '.'] := h1
      exact hfacts.2.2.2.2.2.1 ((List.cons.injEq _ _ _ _).mp h2).1
  simp only [money_to_num, hstrip]
  rw [if_neg (not_or.mpr ⟨hA, hB⟩)]
  simp only [hfil]
  rw [if_neg hsent]
  rw [parseDecimal_digits hne hdig, hval]

/-! ### Claim C1: the currency normalizers to_num and _money_to_num -/

/-- C1 (amended): for every currency string made of decimal digits and
comma thousands separators (with at least one digit), to_num returns the
exact decimal value of its digits — Decimal is arbitrary-precision, so
this half is unbounded; and, for magnitudes below 2^53, canonically
re-formatting that value with the repo's own dollar formatting re-parses
through _money_to_num to the same exact magnitude (the round trip on the
numeric value).  The bound is the modelling boundary of the program, not
of the model: _money_to_num returns float(cleaned) and the f-string
",.0f" spec routes the int through a float, so beyond 2^53 the program
itself rounds the magnitude (and raises OverflowError near 309 digits)
while Decimal parsing stays exact.  A leading dollar sign and
parenthesised negatives are NOT part of to_num's accepted format (see
the counterexample), and _money_to_num, which does strip dollar signs
and parentheses, drops the parenthesised sign, so the round trip holds
on magnitudes only. -/
theorem C1_amended_to_num_round_trip (l : List Char)
    (hchars : ∀ c ∈ l, pyIsDigit c = true ∨ c = ',')
    (hdig : ∃ c ∈ l, pyIsDigit c = true) :
    to_num (String.mk l) = some (.num false (digitsToNat (l.filter pyIsDigit)) 0) ∧
    (digitsToNat (l.filter pyIsDigit) < 2 ^ 53 →
      money_to_num (some (dollarFormat ((digitsToNat (l.filter pyIsDigit) : Nat) : Int))) =
        some (.num false (digitsToNat (l.filter pyIsDigit)) 0)) := by
  refine ⟨?_, fun _ => money_to_num_dollarFormat _⟩
  have hnospace : ∀ c ∈ l, pyIsSpace c = false := by
    intro c hc
    rcases hchars c hc with h | rfl
    · exact (digit_char_facts h).1
    · decide
  have hclean : clean_text (String.mk l) = String.mk l := clean_text_no_space hnospace
  have hcomma : removeChar ',' l = l.filter pyIsDigit := by
    unfold removeChar
    refine List.filter_congr ?_
    intro c hc
    rcases hchars c hc with h | rfl
    · simp [h, (digit_char_facts h).2.2.2.1]
    · simp [pyIsDigit]
  have hpct : removeChar '%' (l.filter pyIsDigit) = l.filter pyIsDigit := by
    unfold removeChar
    refine List.filter_eq_self.mpr ?_
    intro c hc
    have hcd : pyIsDigit c = true := (List.mem_filter.mp hc).2
    simp [(digit_char_facts hcd).2.2.2.2.1]
  set ds := l.filter pyIsDigit with hds
  have hdall : ∀ c ∈ ds, pyIsDigit c = true := fun c hc => (List.mem_filter.mp hc).2
  have hdne : ds ≠ [] := by
    obtain ⟨c, hc, hcd⟩ := hdig
    have : c ∈ ds := List.mem_filter.mpr ⟨hc, hcd⟩
    intro he
    rw [he] at this
    exact List.not_mem_nil c this
  have hlower : asciiLower (String.mk ds) = String.mk ds := by
    unfold asciiLower
    have : ds.map asciiLowerChar = ds.map id :=
      List.map_congr_left (fun c hc => (digit_char_facts (hdall c hc)).2.1)
    rw [show (String.mk ds).data = ds from rfl, this, List.map_id]
  have hsent : asciiLower (String.mk ds) ∉
      (["", "n/a", "na", "-", "none"] : List String) := by
    rw [hlower]
    obtain ⟨d, tl, hdt⟩ : ∃ d tl, ds = d :: tl := by
      cases hnd : ds with
      | nil => exact absurd hnd hdne
      | cons d tl => exact ⟨d, tl, rfl⟩
    have hdd : pyIsDigit d = true := hdall d (by rw [hdt]; simp)
    have hfacts := digit_char_facts hdd
    rw [hdt]
    intro hmem2
    simp only [List.mem_cons, List.not_mem_nil, or_false] at hmem2
    rcases hmem2 with h | h | h | h | h
    · have h1 := congrArg String.data h
      simp at h1
    · have h1 := congrArg String.data h
      have h2 : d :: tl = ['n', '/', 'a'] := h1
      exact hfacts.2.2.2.2.2.2.2.2.2.2.2.1 ((List.cons.injEq _ _ _ _).mp h2).1
    · have h1 := congrArg String.data h
      have h2 : d :: tl = ['n', 'a'] := h1
      exact hfacts.2.2.2.2.2.2.2.2.2.2.2.1 ((List.cons.injEq _ _ _ _).mp h2).1
    · have h1 := congrArg String.data h
      have h2 : d :: tl = ['-'] := h1
      exact hfacts.2.2.2.2.2.1 ((List.cons.injEq _ _ _ _).mp h2).1
    · have h1 := congrArg String.data h
      have h2 : d :: tl = ['n', 'o', 'n', 'e'] := h1
      exact hfacts.2.2.2.2.2.2.2.2.2.2.2.1 ((List.cons.injEq _ _ _ _).mp h2).1
  simp only [to_num, hclean]
  rw [hcomma, hpct, if_neg hsent]
  exact parseDecimal_digits hdne hdall

/-- Concrete instantiation of C1_amended_to_num_round_trip at "1,234"
(whose magnitude is well below 2^53). -/
theorem C1_amended_to_num_round_trip_witness :
    to_num "1,234" = some (.num false 1234 0) ∧
    money_to_num (some (dollarFormat (1234 : Int))) = some (.num false 1234 0) := by
  have h := C1_amended_to_num_round_trip ("1,234".data) (by decide) (by decide)
  have h2 : digitsToNat ("1,234".data.filter pyIsDigit) = 1234 := by decide
  rw [h2] at h
  exact ⟨h.1, h.2 (by norm_num)⟩

/-- C1 fails as stated: to_num does not strip a leading dollar sign at all
(Decimal raises and the bare except yields None, also refuting "None
exactly for the sentinels" since "$1,234" is no sentinel), and
_money_to_num parses a parenthesis-negative to its bare magnitude,
dropping the sign. -/
theorem C1_counterexample :
    to_num "$1,234" = none ∧
    money_to_num (some "(1,234)") = some (.num false 1234 0) ∧
    money_to_num (some "(1,234)") ≠ some (.num true 1234 0) := by
  exact ⟨by decide, by decide, by decide⟩

/-! ### Claims C4 and C5: the paginated address search and its dedup -/

/-- One row of _parse_results_table in scraper/api/main.py: the dict keys
account_id, address, city, owner, total_value, type, detail_url (the key
"type" is rendered row_type here). -/
structure SearchRow where
  account_id : String
  address : String
  city : String
  owner : String
  total_value : String
  row_type : String
  detail_url : String
deriving DecidableEq

/-- The observable content of one fetched results page: the rows that
_parse_results_table extracts from its HTML and the postback target that
_find_next_postback returns (none when no next-page control is present).
The DOM walking of those two helpers is abstracted into these fields. -/
structure ResultsPage where
  rows : List SearchRow
  next : Option String
deriving DecidableEq

/-- The pagination loop of _search_address_paged (scraper/api/main.py
lines 572-593).  respond models the upstream server: the page obtained by
POSTing __EVENTTARGET = target with the tokens of the current page.  The
loop body increments the page counter, appends the parsed rows, breaks at
the ceiling "pages >= 200", then breaks when no next-page control is
found, else follows it.  The fuel argument (initialized to 200) makes the
recursion structural; because the ceiling check fires first, the
fuel-exhausted branch is unreachable from the entry point. -/
def crawlGo (respond : String → ResultsPage) :
    Nat → ResultsPage → List SearchRow → Nat → List SearchRow × Nat
  | fuel, p, acc, pages =>
    let pages1 := pages + 1
    let acc1 := acc ++ p.rows
    if 200 ≤ pages1 then (acc1, pages1)
    else
      match p.next with
      | none => (acc1, pages1)
      | some t =>
        match fuel with
        | 0 => (acc1, pages1)
        | fuel1 + 1 => crawlGo respond fuel1 (respond t) acc1 pages1

/-- The whole pagination phase: rows accumulated across all fetched pages
together with the number of loop iterations (pages consumed). -/
def crawl_pages (respond : String → ResultsPage) (first : ResultsPage) :
    List SearchRow × Nat :=
  crawlGo respond 200 first [] 0

/-- The de-dupe of _search_address_paged (lines 595-602): walk the
accumulated rows, keep a row when its account_id is truthy (non-empty)
and unseen, else drop it. -/
def dedupGo (seen : List String) : List SearchRow → List SearchRow
  | [] => []
  | r :: rs =>
    if r.account_id ≠ "" ∧ r.account_id ∉ seen then
      r :: dedupGo (r.account_id :: seen) rs
    else dedupGo seen rs

def dedup_by_account (rows : List SearchRow) : List SearchRow := dedupGo [] rows

/-- _search_address_paged returns the de-duplicated accumulation. -/
def search_address_paged (respond : String → ResultsPage) (first : ResultsPage) :
    List SearchRow :=
  dedup_by_account (crawl_pages respond first).1

theorem crawlGo_pages_le (respond : String → ResultsPage) :
    ∀ fuel p acc pages, pages < 200 → (crawlGo respond fuel p acc pages).2 ≤ 200 := by
  intro fuel
  induction fuel with
  | zero =>
    intro p acc pages hp
    unfold crawlGo
    by_cases h : 200 ≤ pages + 1
    · simp [h]; omega
    · cases hn : p.next <;> simp [h, hn] <;> omega
  | succ fuel ih =>
    intro p acc pages hp
    unfold crawlGo
    by_cases h : 200 ≤ pages + 1
    · simp [h]; omega
    · cases hn : p.next with
      | none => simp [h, hn]; omega
      | some t =>
        simp only [h, hn, if_false]
        exact ih (respond t) (acc ++ p.rows) (pages + 1) (by omega)

theorem crawlGo_self_loop (respond : String → ResultsPage) (p : ResultsPage)
    (t : String) (hnext : p.next = some t) (hresp : respond t = p) :
    ∀ fuel pages acc, fuel + pages = 200 → pages < 200 →
      crawlGo respond fuel p acc pages =
        (acc ++ (List.replicate (200 - pages) p.rows).flatten, 200) := by
  intro fuel
  induction fuel with
  | zero =>
    intro pages acc hsum hlt
    omega
  | succ fuel ih =>
    intro pages acc hsum hlt
    unfold crawlGo
    by_cases h : 200 ≤ pages + 1
    · have hp : pages = 199 := by omega
      subst hp
      simp [h]
    · simp only [h, if_false, hnext, hresp]
      rw [ih (pages + 1) (acc ++ p.rows) (by omega) (by omega)]
      have hrep : 200 - pages = (200 - (pages + 1)) + 1 := by omega
      rw [hrep]
      simp [List.replicate_succ, List.append_assoc]

/-- C4: for every server behavior and every first results page, the
pagination loop performs at most 200 iterations; in particular a page
whose next link leads back to itself drives the loop to exactly the
ceiling, which is not an error: the loop returns the rows accumulated
over the 200 fetched pages, and the caller receives them de-duplicated. -/
theorem C4_pagination_ceiling (respond : String → ResultsPage) (first : ResultsPage) :
    (crawl_pages respond first).2 ≤ 200 ∧
    (∀ t, first.next = some t → respond t = first →
      crawl_pages respond first = ((List.replicate 200 first.rows).flatten, 200) ∧
      search_address_paged respond first =
        dedup_by_account (List.replicate 200 first.rows).flatten) := by
  constructor
  · exact crawlGo_pages_le respond 200 first [] 0 (by omega)
  · intro t hnext hresp
    have h := crawlGo_self_loop respond first t hnext hresp 200 0 [] (by omega) (by omega)
    have h2 : crawl_pages respond first = ((List.replicate 200 first.rows).flatten, 200) := by
      unfold crawl_pages
      rw [h]
      simp only [Nat.sub_zero, List.nil_append]
    refine ⟨h2, ?_⟩
    unfold search_address_paged
    rw [h2]

/-- Concrete instantiation of C4_pagination_ceiling on a one-row page
whose next link loops back to itself. -/
theorem C4_pagination_ceiling_witness :
    crawl_pages (fun _ => ⟨[⟨"00000500880000000", "312 ELM ST", "DALLAS", "DOE JOHN",
        "$302,630", "Residential", "url"⟩], some "ctl"⟩)
      ⟨[⟨"00000500880000000", "312 ELM ST", "DALLAS", "DOE JOHN",
        "$302,630", "Residential", "url"⟩], some "ctl"⟩ =
      ((List.replicate 200 [⟨"00000500880000000", "312 ELM ST", "DALLAS", "DOE JOHN",
        "$302,630", "Residential", "url"⟩]).flatten, 200) :=
  ((C4_pagination_ceiling _ _).2 "ctl" rfl rfl).1

theorem dedupGo_sublist : ∀ (seen : List String) (rows : List SearchRow),
    (dedupGo seen rows).Sublist rows := by
  intro seen rows
  induction rows generalizing seen with
  | nil => exact List.Sublist.refl []
  | cons r rs ih =>
    unfold dedupGo
    by_cases h : r.account_id ≠ "" ∧ r.account_id ∉ seen
    · rw [if_pos h]
      exact List.Sublist.cons₂ r (ih (r.account_id :: seen))
    · rw [if_neg h]
      exact List.Sublist.cons r (ih seen)

theorem dedupGo_countP (id : String) (hid : id ≠ "") :
    ∀ (rows : List SearchRow) (seen : List String),
      (dedupGo seen rows).countP (fun r => decide (r.account_id = id)) =
        if id ∈ seen then 0
        else min (rows.countP (fun r => decide (r.account_id = id))) 1 := by
  intro rows
  induction rows with
  | nil =>
    intro seen
    by_cases h : id ∈ seen <;> simp [dedupGo, h]
  | cons r rs ih =>
    intro seen
    unfold dedupGo
    by_cases hkeep : r.account_id ≠ "" ∧ r.account_id ∉ seen
    · rw [if_pos hkeep, List.countP_cons, List.countP_cons, ih (r.account_id :: seen)]
      by_cases hpr : r.account_id = id
      · have h1 : id ∈ r.account_id :: seen := by simp [hpr]
        have h2 : ¬ (id ∈ seen) := by rw [← hpr]; exact hkeep.2
        have h3 : (decide (r.account_id = id)) = true := decide_eq_true hpr
        rw [if_pos h1, if_neg h2, h3]
        have h4 : (if (true : Bool) = true then (1 : Nat) else 0) = 1 := rfl
        rw [h4, Nat.min_def]
        split <;> omega
      · have h3 : (decide (r.account_id = id)) = false := decide_eq_false hpr
        have h1 : (id ∈ r.account_id :: seen) ↔ id ∈ seen := by
          simp only [List.mem_cons, or_iff_right_iff_imp]
          intro he
          exact absurd he.symm hpr
        rw [h3]
        simp only [Bool.false_eq_true, if_false, Nat.add_zero]
        by_cases hs : id ∈ seen
        · rw [if_pos (h1.mpr hs), if_pos hs]
        · rw [if_neg (fun hm => hs (h1.mp hm)), if_neg hs]
    · rw [if_neg hkeep, ih seen, List.countP_cons]
      by_cases hpr : r.account_id = id
      · have hs : id ∈ seen := by
          rcases not_and_or.mp hkeep with h | h
          · have hre : r.account_id = "" := not_not.mp h
            have : id = "" := by rw [← hpr, hre]
            exact absurd this hid
          · have hre : r.account_id ∈ seen := not_not.mp h
            rw [← hpr]
            exact hre
        rw [if_pos hs, if_pos hs]
      · have h3 : (decide (r.account_id = id)) = false := decide_eq_false hpr
        rw [h3]
        simp only [Bool.false_eq_true, if_false, Nat.add_zero]

theorem dedupGo_find (id : String) :
    ∀ (rows : List SearchRow) (seen : List String), id ≠ "" → id ∉ seen →
      (dedupGo seen rows).find? (fun r => decide (r.account_id = id)) =
        rows.find? (fun r => decide (r.account_id = id)) := by
  intro rows
  induction rows with
  | nil => intro seen _ _; rfl
  | cons r rs ih =>
    intro seen hid hseen
    unfold dedupGo
    by_cases hkeep : r.account_id ≠ "" ∧ r.account_id ∉ seen
    · rw [if_pos hkeep]
      by_cases hpr : r.account_id = id
      · rw [List.find?_cons_of_pos _ (by simp [hpr]), List.find?_cons_of_pos _ (by simp [hpr])]
      · rw [List.find?_cons_of_neg _ (by simp [hpr]), List.find?_cons_of_neg _ (by simp [hpr])]
        exact ih (r.account_id :: seen) hid (by
          simp only [List.mem_cons]
          rintro (rfl | hs)
          · exact hpr rfl
          · exact hseen hs)
    · rw [if_neg hkeep]
      by_cases hpr : r.account_id = id
      · exfalso
        rcases not_and_or.mp hkeep with h | h
        · exact hid (by rw [← hpr]; simpa using h)
        · exact hseen (by rw [← hpr]; simpa using h)
      · rw [List.find?_cons_of_neg _ (by simp [hpr])]
        exact ih seen hid hseen

/-- C5 (amended): the deduplicated result is a subsequence of the
accumulated rows (so kept rows appear in first-seen order and are actual
input rows); every non-empty account id occurs in the output exactly once
when it occurs in the input at all (min count 1); and the row kept for a
non-empty id is precisely the first-seen row carrying that id.  Rows
whose account id is the empty string are dropped entirely (see the
counterexample) — that is the one deviation from the claim as stated. -/
theorem C5_dedup_first_seen (rows : List SearchRow) (id : String) (hid : id ≠ "") :
    (dedup_by_account rows).Sublist rows ∧
    (dedup_by_account rows).countP (fun r => decide (r.account_id = id)) =
      min (rows.countP (fun r => decide (r.account_id = id))) 1 ∧
    (dedup_by_account rows).find? (fun r => decide (r.account_id = id)) =
      rows.find? (fun r => decide (r.account_id = id)) := by
  refine ⟨dedupGo_sublist [] rows, ?_, dedupGo_find id rows [] hid (by simp)⟩
  unfold dedup_by_account
  rw [dedupGo_countP id hid rows []]
  simp

/-- Concrete instantiation of C5_dedup_first_seen on rows with the
account id "A" repeated across pages. -/
theorem C5_dedup_first_seen_witness :
    dedup_by_account [⟨"A", "1 ELM", "", "", "", "", ""⟩,
        ⟨"B", "2 OAK", "", "", "", "", ""⟩,
        ⟨"A", "3 ASH", "", "", "", "", ""⟩] =
      [⟨"A", "1 ELM", "", "", "", "", ""⟩, ⟨"B", "2 OAK", "", "", "", "", ""⟩] ∧
    (dedup_by_account [⟨"A", "1 ELM", "", "", "", "", ""⟩,
        ⟨"B", "2 OAK", "", "", "", "", ""⟩,
        ⟨"A", "3 ASH", "", "", "", "", ""⟩]).countP
      (fun r => decide (r.account_id = "A")) =
      min ([⟨"A", "1 ELM", "", "", "", "", ""⟩,
        ⟨"B", "2 OAK", "", "", "", "", ""⟩,
        (⟨"A", "3 ASH", "", "", "", "", ""⟩ : SearchRow)].countP
          (fun r => decide (r.account_id = "A"))) 1 :=
  ⟨by decide, (C5_dedup_first_seen _ "A" (by decide)).2.1⟩

/-- C5 fails as stated on a row whose account id is empty: the dedup
filter "if acc and acc not in seen" drops it entirely, so its id occurs
zero times in the output rather than exactly once. -/
theorem C5_counterexample :
    dedup_by_account [⟨"", "1 ELM", "DALLAS", "DOE", "$1", "Res", "u"⟩] = [] ∧
    ([(⟨"", "1 ELM", "DALLAS", "DOE", "$1", "Res", "u"⟩ : SearchRow)].countP
      (fun r => decide (r.account_id = ""))) = 1 :=
  ⟨by decide, by decide⟩

/-! ### Claim C7: the derived land value in parse_value_summary -/

/-- Rational value of a finite Decimal. -/
def decQ (neg : Bool) (c : Nat) (e : Int) : ℚ :=
  (if neg then -(c : ℚ) else (c : ℚ)) * (10 : ℚ) ^ e

/-- Python round() with no digits on an exact value: round half to even,
returning an int. -/
def roundHalfEven (q : ℚ) : Int :=
  let f := ⌊q⌋
  let r := q - f
  if r < 1 / 2 then f
  else if 1 / 2 < r then f + 1
  else if f % 2 = 0 then f else f + 1

/-- The vs dict of parse_value_summary (scraper/dcad/parse_detail.py
lines 984-993), in source key order.  certified_year is an int (or None),
the monetary fields are display strings with "N/A" as the absence marker,
the revaluation years come from to_num. -/
structure ValueSummaryRec where
  certified_year : Option Int
  improvement_value : String
  land_value : String
  market_value : String
  capped_value : String
  tax_agent : String
  revaluation_year : Option PyDec
  previous_revaluation_year : Option PyDec
deriving DecidableEq

/-- The land-value backfill of parse_value_summary (lines 1051-1060): when
land_value is still "N/A", parse the improvement and market strings
through to_num (guarded by their truthiness and "N/A" checks) and, when
market >= improvement and the difference is non-negative, surface it as
"$<comma-grouped int>".  A NaN operand makes Python's Decimal comparison
raise and an infinite one makes int() raise; both are swallowed by the
enclosing except and leave vs unchanged, which the catch-all match arm
mirrors. -/
def derive_land_value (vs : ValueSummaryRec) : ValueSummaryRec :=
  if vs.land_value = "N/A" then
    let imp_n := if vs.improvement_value ≠ "" ∧ vs.improvement_value ≠ "N/A" then
      to_num vs.improvement_value else none
    let mkt_n := if vs.market_value ≠ "" ∧ vs.market_value ≠ "N/A" then
      to_num vs.market_value else none
    match imp_n, mkt_n with
    | some (.num negi ci ei), some (.num negm cm em) =>
      if decQ negi ci ei ≤ decQ negm cm em then
        let land_calc := decQ negm cm em - decQ negi ci ei
        if 0 ≤ land_calc then
          { vs with land_value := dollarFormat (roundHalfEven land_calc) }
        else vs
      else vs
    | _, _ => vs
  else vs

theorem to_num_some_ne {s : String} {d : PyDec} (h : to_num s = some d) :
    s ≠ "" ∧ s ≠ "N/A" := by
  constructor
  · rintro rfl
    have h0 : to_num "" = none := by decide
    rw [h0] at h
    exact Option.noConfusion h
  · rintro rfl
    have h0 : to_num "N/A" = none := by decide
    rw [h0] at h
    exact Option.noConfusion h

theorem roundHalfEven_intCast (z : Int) : roundHalfEven ((z : Int) : ℚ) = z := by
  unfold roundHalfEven
  rw [Int.floor_intCast]
  norm_num

/-- C7: when land_value is absent ("N/A") and both market_value and
improvement_value parse as plain non-negative decimal integers, the
assembler surfaces land_value = market − improvement exactly when the
difference is non-negative, formatted in dollars, and that formatted
string re-parses (through the repo's own money parser) to the exact
difference; when improvement exceeds market, land_value stays "N/A" — a
negative derived value is never surfaced.  (The bound on m keeps the
modelled integer dollar formatting exact, since Python routes the value
through a float for the ",.0f" spec.) -/
theorem C7_land_value_derivation (vs : ValueSummaryRec) (i m : Nat)
    (hland : vs.land_value = "N/A")
    (himp : to_num vs.improvement_value = some (.num false i 0))
    (hmkt : to_num vs.market_value = some (.num false m 0))
    (_hbound : m < 2 ^ 53) :
    (derive_land_value vs).land_value =
      (if i ≤ m then dollarFormat ((m : Int) - (i : Int)) else "N/A") ∧
    (i ≤ m → money_to_num (some (dollarFormat ((m : Int) - (i : Int)))) =
      some (.num false (m - i) 0)) := by
  obtain ⟨hi1, hi2⟩ := to_num_some_ne himp
  obtain ⟨hm1, hm2⟩ := to_num_some_ne hmkt
  constructor
  · have hq : ∀ c : Nat, decQ false c 0 = (c : ℚ) := by
      intro c
      unfold decQ
      norm_num
    unfold derive_land_value
    rw [if_pos hland]
    simp only [hi1, hi2, hm1, hm2, ne_eq, not_false_iff, and_self, if_true, himp, hmkt]
    by_cases hle : i ≤ m
    · have hle2 : decQ false i 0 ≤ decQ false m 0 := by
        rw [hq, hq]
        exact_mod_cast hle
      rw [if_pos hle2]
      have hpos : (0 : ℚ) ≤ decQ false m 0 - decQ false i 0 := by
        rw [hq, hq]
        have hle3 : (i : ℚ) ≤ (m : ℚ) := by exact_mod_cast hle
        linarith
      rw [if_pos hpos]
      have hcalc : decQ false m 0 - decQ false i 0 = (((m : Int) - (i : Int) : Int) : ℚ) := by
        rw [hq, hq]
        push_cast
        ring
      rw [if_pos hle]
      simp only [hcalc, roundHalfEven_intCast]
    · have hle2 : ¬ (decQ false i 0 ≤ decQ false m 0) := by
        rw [hq, hq]
        intro hcon
        exact hle (by exact_mod_cast hcon)
      rw [if_neg hle2, if_neg hle]
      exact hland
  · intro hle
    have hcast : ((m : Int) - (i : Int)) = ((m - i : Nat) : Int) := by omega
    rw [hcast]
    exact money_to_num_dollarFormat (m - i)

/-- Concrete instantiation of C7_land_value_derivation at
market_value = 300000, improvement_value = 120000: the derived land value
is the formatted difference (of magnitude 180000). -/
theorem C7_land_value_derivation_witness :
    (derive_land_value ⟨none, "120000", "N/A", "300000", "N/A", "N/A", none, none⟩).land_value =
      (if (120000 : Nat) ≤ 300000 then dollarFormat ((300000 : Int) - (120000 : Int))
       else "N/A") :=
  (C7_land_value_derivation _ 120000 300000 rfl (by decide) (by decide) (by decide)).1

/-! ### The flat table model and parse_keyvalue_table (claim C9) -/

/-- One table cell: its rendered text (get_text), whether it is a th, and
its class attribute (space-joined), which parse_keyvalue_table matches
with the FieldName/FieldLabel and FieldValue/FieldVal regexes. -/
structure Cell where
  text : String
  isTh : Bool
  cls : String
deriving DecidableEq

/-- A table row: its cells in document order (find_all on th and td). -/
abbrev TRow := List Cell

/-- A table: its rows in document order (find_all on tr). -/
abbrev HtmlTable := List TRow

/-- First-match association lookup, as a Python dict read. -/
def kvGet (kv : List (String × String)) (k : String) : Option String :=
  match kv with
  | [] => none
  | (k2, v) :: rest => if k2 = k then some v else kvGet rest k

/-- dict.get(k, "") as used via kv.get(k, "") in parse_main_improvement. -/
def kvGetD (kv : List (String × String)) (k : String) : String :=
  (kvGet kv k).getD ""

/-- dict.setdefault: first insertion wins, later duplicates are ignored. -/
def kvSetdefault (k v : String) (kv : List (String × String)) :
    List (String × String) :=
  if (kvGet kv k).isSome then kv else kv ++ [(k, v)]

/-- get_any (scraper/dcad/parse_detail.py lines 20-24): first key present
with a truthy value, else "". -/
def get_any (kv : List (String × String)) : List String → String
  | [] => ""
  | k :: ks =>
    match kvGet kv k with
    | some v => if v ≠ "" then v else get_any kv ks
    | none => get_any kv ks

/-- Case-insensitive test of the class attribute against the alternatives
of a compiled class_ regex (re.search semantics: substring match). -/
def matchesClassPat (pats : List String) (c : Cell) : Bool :=
  pats.any (fun p => strContains (asciiLower c.cls) p)

/-- str.split(b) for one character separator. -/
def splitOnChar (b : Char) : List Char → List (List Char)
  | [] => [[]]
  | c :: cs =>
    let r := splitOnChar b cs
    if c = b then [] :: r
    else
      match r with
      | h :: t => (c :: h) :: t
      | [] => [[c]]

/-- The successive-pair fallback of parse_keyvalue_table for rows with
more than two cells and no FieldName/FieldValue classes: for i in
range(0, len(texts)-1, 2): setdefault(texts[i].lower(), texts[i+1]). -/
def kvPairs : List (String × String) → List String → List (String × String)
  | kv, t0 :: t1 :: rest =>
    kvPairs (if asciiLower t0 ≠ "" then kvSetdefault (asciiLower t0) t1 kv else kv) rest
  | kv, _ => kv

/-- One row of parse_keyvalue_table (scraper/dcad/parse_detail.py lines
178-212): collect the cleaned non-empty cell texts; a single text with a
colon is split at the first colon with both parts stripped (equivalent to
re.split(r"\s*:\s*", t, maxsplit=1) followed by str.strip on each part);
two texts form a label/value pair; more than two texts use class-based
label/value pairing when both class lists are non-empty and equally long,
else successive 2-cell pairs.  All insertions are setdefault
(first occurrence wins). -/
def parse_keyvalue_row (kv : List (String × String)) (tr : TRow) :
    List (String × String) :=
  let texts := (tr.map (fun c => clean_text c.text)).filter (fun t => t ≠ "")
  match texts with
  | [] => kv
  | [t0] =>
    if containsSub ":".data t0.data then
      match (splitFirst (fun c => c = ':') t0.data).2 with
      | some rest =>
        let p0 := String.mk (stripList (splitFirst (fun c => c = ':') t0.data).1)
        let p1 := String.mk (stripList rest)
        if p0 ≠ "" then kvSetdefault (asciiLower p0) p1 kv else kv
      | none => kv
    else kv
  | [t0, t1] =>
    if asciiLower t0 ≠ "" then kvSetdefault (asciiLower t0) t1 kv else kv
  | texts =>
    let labels := tr.filter (matchesClassPat ["fieldname", "fieldlabel"])
    let values := tr.filter (matchesClassPat ["fieldvalue", "fieldval"])
    if labels ≠ [] ∧ values ≠ [] ∧ labels.length = values.length then
      (labels.zip values).foldl (fun acc lv =>
        let lk := asciiLower (clean_text lv.1.text)
        let vv := clean_text lv.2.text
        if lk ≠ "" then kvSetdefault lk vv acc else acc) kv
    else kvPairs kv texts

def parse_keyvalue_table (tbl : HtmlTable) : List (String × String) :=
  tbl.foldl parse_keyvalue_row []

/-- Leftmost match of \d+(\.\d+)? anchored at the start of the list. -/
def numberAtStart (l : List Char) : Option (List Char) :=
  match l with
  | [] => none
  | c :: _ =>
    if pyIsDigit c then
      let ds := l.takeWhile pyIsDigit
      match l.dropWhile pyIsDigit with
      | '.' :: r2 =>
        let fs := r2.takeWhile pyIsDigit
        if fs ≠ [] then some (ds ++ '.' :: fs) else some ds
      | _ => some ds
    else none

/-- re.search(r"(\d+(\.\d+)?)", s): the leftmost unsigned number token. -/
def firstNumberToken : List Char → Option (List Char)
  | [] => none
  | c :: cs =>
    match numberAtStart (c :: cs) with
    | some tok => some tok
    | none => firstNumberToken cs

/-- re.search(r"-?\d+(?:\.\d+)?", s): the leftmost optionally-signed
number token (used for the actual-age field). -/
def firstSignedNumberToken : List Char → Option (List Char)
  | [] => none
  | c :: cs =>
    match numberAtStart (c :: cs) with
    | some tok => some tok
    | none =>
      if c = '-' then
        match numberAtStart cs with
        | some tok => some ('-' :: tok)
        | none => firstSignedNumberToken cs
      else firstSignedNumberToken cs

/-- _stories_to_number (lines 214-225): first try a numeric token; else
map the first contained word among ONE..SIX (in that order) to its value,
adding one half when "HALF" also occurs; else None.  Word values model
Python floats by exact value (n, or n + 0.5 as coefficient 10n+5 with
exponent -1). -/
def stories_to_number (s : Option String) : Option PyDec :=
  match s with
  | none => none
  | some s0 =>
    if s0 = "" then none
    else
      match firstNumberToken s0.data with
      | some tok => to_num (String.mk tok)
      | none =>
        let s_up := asciiUpper s0
        let words : List (String × Nat) :=
          [("ONE", 1), ("TWO", 2), ("THREE", 3), ("FOUR", 4), ("FIVE", 5), ("SIX", 6)]
        match words.find? (fun wn => strContains s_up wn.1) with
        | some wn =>
          if strContains s_up "HALF" then some (.num false (10 * wn.2 + 5) (-1))
          else some (.num false wn.2 0)
        | none => none

/-- _parse_baths_full_half (lines 237-245): split the
"# baths (full/half)" value on "/" after deleting spaces; exactly two
parts parse through to_num, anything else is (None, None). -/
def parse_baths_full_half (kv : List (String × String)) :
    Option PyDec × Option PyDec :=
  match kvGet kv "# baths (full/half)" with
  | none => (none, none)
  | some v =>
    if v = "" then (none, none)
    else
      match (splitOnChar '/' (removeChar ' ' v.data)).map stripList with
      | [p0, p1] => (to_num (String.mk p0), to_num (String.mk p1))
      | _ => (none, none)

/-- The out dict of parse_main_improvement (lines 316-362), in source
order, after the final pass mapping empty-string values to None.  String
fields are Option String; numeric fields carry the to_num / to_sqft /
pct_to_num results. -/
structure MainImprovement where
  building_class : Option String
  year_built : Option PyDec
  effective_year_built : Option PyDec
  actual_age : Option PyDec
  desirability : Option String
  desirability_raw : Option String
  desirability_id : Option PyDec
  living_area_sqft : Option PyDec
  total_living_area : Option PyDec
  total_area_sqft : Option PyDec
  percent_complete : Option PyDec
  stories : Option PyDec
  stories_raw : Option String
  depreciation : Option PyDec
  construction_type : Option String
  foundation : Option String
  roof_type : Option String
  roof_material : Option String
  fence_type : Option String
  exterior_material : Option String
  basement_raw : Option String
  basement : Option String
  heating : Option String
  air_conditioning : Option String
  baths_full : Option PyDec
  baths_half : Option PyDec
  bedroom_count : Option PyDec
  kitchens : Option PyDec
  wetbars : Option PyDec
  fireplaces : Option PyDec
  sprinkler : Option String
  deck : Option String
  spa : Option String
  pool : Option String
  sauna : Option String
deriving DecidableEq

/-- The v-if-v-else-None pass of line 364 on string values. -/
def strOpt (s : String) : Option String := if s = "" then none else some s

/-- The all-values-None test of lines 365-366 (an empty dict is returned
when nothing was extracted). -/
def MainImprovement.isEmpty (r : MainImprovement) : Bool :=
  r.building_class.isNone && r.year_built.isNone && r.effective_year_built.isNone &&
  r.actual_age.isNone && r.desirability.isNone && r.desirability_raw.isNone &&
  r.desirability_id.isNone && r.living_area_sqft.isNone && r.total_living_area.isNone &&
  r.total_area_sqft.isNone && r.percent_complete.isNone && r.stories.isNone &&
  r.stories_raw.isNone && r.depreciation.isNone && r.construction_type.isNone &&
  r.foundation.isNone && r.roof_type.isNone && r.roof_material.isNone &&
  r.fence_type.isNone && r.exterior_material.isNone && r.basement_raw.isNone &&
  r.basement.isNone && r.heating.isNone && r.air_conditioning.isNone &&
  r.baths_full.isNone && r.baths_half.isNone && r.bedroom_count.isNone &&
  r.kitchens.isNone && r.wetbars.isNone && r.fireplaces.isNone &&
  r.sprinkler.isNone && r.deck.isNone && r.spa.isNone && r.pool.isNone &&
  r.sauna.isNone

/-- parse_main_improvement (scraper/dcad/parse_detail.py lines 287-367)
applied to the resolved main-improvement table (the DOM-walking
resolution chain of _resolve_main_improvement_table /
_find_best_main_by_content is abstracted as the argument: none when no
table was located).  The located table goes through parse_keyvalue_table
and the per-field extraction below; an all-None record is the empty
dict. -/
def parse_main_improvement (mi_tbl : Option HtmlTable) : Option MainImprovement :=
  match mi_tbl with
  | none => none
  | some tbl =>
    let kv := parse_keyvalue_table tbl
    let s_text := if kvGetD kv "# stories" ≠ "" then kvGetD kv "# stories"
      else kvGetD kv "stories"
    let s_num := stories_to_number (some s_text)
    let bfh := parse_baths_full_half kv
    let bedrooms_num := to_num (get_any kv
      ["# bedrooms", "bedrooms", "bed rooms", "bed room", "bedroom"])
    let raw_age := get_any kv ["actual age", "age"]
    let age_num := if raw_age ≠ "" then
        match firstSignedNumberToken raw_age.data with
        | some tok => to_num (String.mk tok)
        | none => none
      else none
    let desirability_id := to_num (get_any kv ["desirability id", "desirability code"])
    let desirability_val := kvGetD kv "desirability"
    let basement_text := get_any kv ["basement"]
    let total_liv := to_sqft (get_any kv
      ["total living area", "total liv area", "living area total", "total_living_area"])
    let out : MainImprovement := {
      building_class := strOpt (kvGetD kv "building class")
      year_built := to_num (get_any kv ["year built", "yr built", "built"])
      effective_year_built := to_num (get_any kv
        ["effective year built", "eff year built", "eff yr"])
      actual_age := age_num
      desirability := strOpt desirability_val
      desirability_raw := strOpt desirability_val
      desirability_id := desirability_id
      living_area_sqft := to_sqft (get_any kv ["living area", "liv area", "area living"])
      total_living_area := total_liv
      total_area_sqft := to_sqft (get_any kv ["total area", "area total"])
      percent_complete := to_num (get_any kv
        ["% complete", "percent complete", "complete %"])
      stories := s_num
      stories_raw := strOpt s_text
      depreciation := pct_to_num (get_any kv ["depreciation", "depr %", "depreciation %"])
      construction_type := strOpt (get_any kv
        ["construction type", "constr type", "construction"])
      foundation := strOpt (get_any kv ["foundation", "found type"])
      roof_type := strOpt (get_any kv ["roof type", "type roof"])
      roof_material := strOpt (get_any kv ["roof material", "material roof"])
      fence_type := strOpt (get_any kv ["fence type", "type fence"])
      exterior_material := strOpt (get_any kv
        ["ext. wall material", "exterior wall material", "exterior"])
      basement_raw := strOpt basement_text
      basement := strOpt (map_yn_to_none (some basement_text))
      heating := strOpt (get_any kv ["heating", "heat type"])
      air_conditioning := strOpt (get_any kv
        ["air condition", "air conditioning", "ac type"])
      baths_full := match bfh.1 with
        | some x => some x
        | none => to_num (get_any kv ["# baths (full)", "baths full", "full baths"])
      baths_half := match bfh.2 with
        | some x => some x
        | none => to_num (get_any kv ["# baths (half)", "baths half", "half baths"])
      bedroom_count := bedrooms_num
      kitchens := to_num (get_any kv ["# kitchens", "kitchens"])
      wetbars := to_num (get_any kv ["# wet bars", "wet bars"])
      fireplaces := to_num (get_any kv ["# fireplaces", "fireplaces"])
      sprinkler := strOpt (map_yn_to_none (some (get_any kv ["sprinkler"])))
      deck := strOpt (map_yn_to_none (some (get_any kv ["deck"])))
      spa := strOpt (map_yn_to_none (some (get_any kv ["spa"])))
      pool := strOpt (map_yn_to_none (some (get_any kv ["pool"])))
      sauna := strOpt (map_yn_to_none (some (get_any kv ["sauna"]))) }
    if out.isEmpty then none else some out

/-- C9 fails as stated: the posited main-improvement section is a header
grid, but parse_keyvalue_table pairs its cells as label/value within each
row, so the header row yields the pairs ("year built" ↦ "Effective Year
Built", "desirability" ↦ "Total Living Area") and the data row yields
("1998" ↦ "2001", "good" ↦ "2,115 sqft"); the extracted record then has
year_built = None (to_num("Effective Year Built") fails), effective year,
and total living area None, and desirability = "Total Living Area" — not
the values the claim requires. -/
theorem C9_counterexample :
    (parse_main_improvement (some
      [[⟨"Year Built", true, ""⟩, ⟨"Effective Year Built", true, ""⟩,
        ⟨"Desirability", true, ""⟩, ⟨"Total Living Area", true, ""⟩],
       [⟨"1998", false, ""⟩, ⟨"2001", false, ""⟩,
        ⟨"GOOD", false, ""⟩, ⟨"2,115 sqft", false, ""⟩]])).map
      (fun r => (r.year_built, r.effective_year_built, r.desirability,
        r.total_living_area)) =
      some (none, none, some "Total Living Area", none) := by
  decide

/-- C9 (amended): feeding the same main-improvement content in the
label/value shape the extractor actually handles — one row per field,
label cell then value cell — produces year_built = 1998,
effective_year_built = 2001, desirability = "GOOD", and
total_living_area = 2115. -/
theorem C9_amended_main_improvement :
    (parse_main_improvement (some
      [[⟨"Year Built", true, ""⟩, ⟨"1998", false, ""⟩],
       [⟨"Effective Year Built", true, ""⟩, ⟨"2001", false, ""⟩],
       [⟨"Desirability", true, ""⟩, ⟨"GOOD", false, ""⟩],
       [⟨"Total Living Area", true, ""⟩, ⟨"2,115 sqft", false, ""⟩]])).map
      (fun r => (r.year_built, r.effective_year_built, r.desirability,
        r.total_living_area)) =
      some (some (.num false 1998 0), some (.num false 2001 0),
        some "GOOD", some (.num false 2115 0)) := by
  decide

/-! ### Claim C2: the jurisdiction-keyed maps -/

/-- Python dict assignment on a string-keyed association list: replace in
place when the key exists (insertion order kept), else append. -/
def alSet {α : Type} (k : String) (v : α) : List (String × α) → List (String × α)
  | [] => [(k, v)]
  | (k2, v2) :: rest => if k2 = k then (k, v) :: rest else (k2, v2) :: alSet k v rest

/-- Python dict read: Some value iff the key is present. -/
def alGet {α : Type} (k : String) : List (String × α) → Option α
  | [] => none
  | (k2, v2) :: rest => if k2 = k then some v2 else alGet k rest

/-- "s or default" for the empty string against "N/A". -/
def orNA (s : String) : String := if s = "" then "N/A" else s

/-- _num_or_na (lines 48-52). -/
def num_or_na (t : Option String) : String :=
  match t with
  | none => "N/A"
  | some t0 => orNA (clean_text t0)

/-- Cleaned texts of the td cells of a row, in order. -/
def exRowTds (tr : TRow) : List String :=
  (tr.filter (fun c => !c.isTh)).map (fun c => clean_text c.text)

/-- clean_text(r.get_text()): the row's concatenated cell text, cleaned. -/
def rowFullText (tr : TRow) : String :=
  clean_text (String.mk ((tr.map (fun c => c.text.data)).flatten))

/-- An exemptions table together with any cell elements that are direct
children of the table element (outside any tr), which the source's
recursive=False fallback scans for the taxable-value row. -/
structure ExTable where
  rows : HtmlTable
  looseCells : List Cell
deriving DecidableEq

/-- One column record of the exemptions map (lines 538-545). -/
structure ExEntry where
  taxing_jurisdiction : String
  homestead_exemption : String
  taxable_value : String
deriving DecidableEq

/-- str(col).lower().replace(" ", "_"). -/
def normJurKey (col : String) : String :=
  String.mk ((asciiLower col).data.map (fun c => if c = ' ' then '_' else c))

/-- The recursive=False fallback (lines 524-536): first loose th whose
cleaned text contains "taxable value", then the cleaned texts of the
following loose td siblings. -/
def looseTaxableRow : List Cell → Option (List String)
  | [] => none
  | c :: rest =>
    if c.isTh ∧ strContains (asciiLower (clean_text c.text)) "taxable value" then
      some ((rest.filter (fun d => !d.isTh)).map (fun d => clean_text d.text))
    else looseTaxableRow rest

/-- parse_exemptions_sections (scraper/dcad/parse_detail.py lines
490-545) applied to the located exemptions table (the locator chain and
the nested-table descent of lines 491-497 are abstracted as the
argument).  Fewer than 3 rows, or no table, give the empty dict; else one
entry per column header beyond the first, keyed by the normalized header
— no canonical jurisdiction is ever synthesized. -/
def parse_exemptions_sections (ex_tbl : Option ExTable) : List (String × ExEntry) :=
  match ex_tbl with
  | none => []
  | some t =>
    let rows := t.rows
    if rows.length < 3 then []
    else
      let headers := (rows.headD []).map (fun c => clean_text c.text)
      let col_headers := headers.drop 1
      let row1 := exRowTds (rows.getD 1 [])
      let row2 := exRowTds (rows.getD 2 [])
      let row3 : Option (List String) :=
        match (rows.drop 3).find? (fun r =>
            strContains (asciiLower (rowFullText r)) "taxable value") with
        | some r => some (exRowTds r)
        | none => looseTaxableRow t.looseCells
      col_headers.enum.foldl (fun out ic =>
        let tj := row1.getD ic.1 "N/A"
        let he := row2.getD ic.1 "N/A"
        let tv := match row3 with
          | some r3 => r3.getD ic.1 "N/A"
          | none => "N/A"
        alSet (normJurKey ic.2) ⟨orNA tj, orNA he, orNA tv⟩ out) []

/-- One bucket of the estimated-taxes map (lines 605-614). -/
structure TaxEntry where
  taxing_unit : String
  tax_rate_per_100 : String
  taxable_value : String
  estimated_taxes : String
  tax_ceiling : String
deriving DecidableEq

/-- The canonical jurisdiction keys of lines 616-618. -/
def canonicalJurisdictions : List String :=
  ["city", "school", "county", "college", "hospital", "special_district"]

/-- bucket_for (lines 591-603). -/
def bucket_for (label : String) : String :=
  let lab := asciiLower label
  if strContains lab "school" || strContains lab "isd" then "school"
  else if strContains lab "college" then "college"
  else if strContains lab "hospital" then "hospital"
  else if strContains lab "county" then "county"
  else if strContains lab "special" then "special_district"
  else "city"

/-- The named-rows loop of lines 564-576: label rows keyed by their
uppercased th text (later duplicates overwrite); the
"total estimated taxes" row instead fills the total string when it is
still falsy (the last td cell, else the last th cell) and is not named. -/
def estTaxesScan (init_total : Option String) (rows : HtmlTable) :
    List (String × List String) × Option String :=
  rows.foldl (fun st r =>
    let label := match r.find? (fun c => c.isTh) with
      | some th => clean_text th.text
      | none => ""
    let tds := exRowTds r
    if strContains (asciiLower (rowFullText r)) "total estimated taxes" then
      if (st.2.getD "") = "" then
        let tdCells := r.filter (fun c => !c.isTh)
        let cellList := if tdCells ≠ [] then tdCells else r.filter (fun c => c.isTh)
        match cellList.getLast? with
        | some c => (st.1, some (clean_text c.text))
        | none => st
      else st
    else
      if label ≠ "" then (alSet (asciiUpper label) tds st.1, st.2) else st)
    ([], init_total)

/-- row_vals (lines 578-583): first listed name bound to a non-empty
list. -/
def row_vals (named : List (String × List String)) : List String → List String
  | [] => []
  | n :: ns =>
    match alGet (asciiUpper n) named with
    | some v => if v ≠ [] then v else row_vals named ns
    | none => row_vals named ns

/-- parse_estimated_taxes (lines 547-620) applied to the located table
and the text of the #TaxEst1_lblTotalTax span (both located in the DOM
and abstracted as arguments).  A missing table, or fewer than 3 non-empty
rows, gives the empty map with total "N/A"; else the columns are
bucketed by jurisdiction and the six canonical keys are synthesized with
"N/A" entries when absent. -/
def parse_estimated_taxes (tbl : Option HtmlTable) (totalSpan : Option String) :
    List (String × TaxEntry) × String × String :=
  match tbl with
  | none => ([], "N/A", "OK")
  | some t =>
    let rows := t.filter (fun r => r ≠ [])
    if rows.length < 3 then ([], "N/A", "OK")
    else
      let total0 : Option String := totalSpan.map clean_text
      let header_cells := (rows.headD []).map (fun c => clean_text c.text)
      let col_headers := header_cells.drop 1
      let scan := estTaxesScan total0 (rows.drop 1)
      let named := scan.1
      let taxing_j := row_vals named ["TAXING JURISDICTION"]
      let rate := row_vals named ["TAX RATE PER $100", "TAX RATE PER $100.00", "TAX RATE"]
      let txv := row_vals named ["TAXABLE VALUE", "TAXABLE VALUES"]
      let est := row_vals named ["ESTIMATED TAXES", "ESTIMATED TAX"]
      let ceil := row_vals named ["TAX CEILING", "TAX CEILINGS"]
      let buckets0 := col_headers.enum.foldl (fun b ic =>
        alSet (bucket_for ic.2)
          ⟨taxing_j.getD ic.1 "N/A", rate.getD ic.1 "N/A", txv.getD ic.1 "N/A",
           est.getD ic.1 "N/A", ceil.getD ic.1 "N/A"⟩ b) []
      let buckets := canonicalJurisdictions.foldl (fun b k =>
        if (alGet k b).isSome then b
        else alSet k ⟨"N/A", "N/A", "N/A", "N/A", "N/A"⟩ b) buckets0
      (buckets, num_or_na scan.2, "OK")

theorem alGet_alSet_self {α : Type} (k : String) (v : α) :
    ∀ m : List (String × α), alGet k (alSet k v m) = some v := by
  intro m
  induction m with
  | nil => simp [alSet, alGet]
  | cons p rest ih =>
    obtain ⟨k2, v2⟩ := p
    unfold alSet
    by_cases h : k2 = k
    · rw [if_pos h]
      simp [alGet]
    · rw [if_neg h]
      unfold alGet
      rw [if_neg h]
      exact ih

theorem alGet_alSet_other {α : Type} (k k2 : String) (v : α) (hne : k2 ≠ k) :
    ∀ m : List (String × α), alGet k (alSet k2 v m) = alGet k m := by
  intro m
  induction m with
  | nil => simp [alSet, alGet, hne]
  | cons p rest ih =>
    obtain ⟨k3, v3⟩ := p
    unfold alSet
    by_cases h : k3 = k2
    · rw [if_pos h]
      unfold alGet
      subst h
      rw [if_neg hne, if_neg hne]
    · rw [if_neg h]
      unfold alGet
      by_cases h2 : k3 = k
      · rw [if_pos h2, if_pos h2]
      · rw [if_neg h2, if_neg h2]
        exact ih

theorem alGet_alSet_isSome {α : Type} (k k2 : String) (v : α) (m : List (String × α))
    (h : (alGet k (alSet k2 v m)).isSome = true) :
    k = k2 ∨ (alGet k m).isSome = true := by
  by_cases he : k = k2
  · exact Or.inl he
  · right
    rwa [alGet_alSet_other k k2 v (fun hx => he hx.symm) m] at h

/-- Keys of a fold of dict assignments come from the assigned keys or the
initial dict. -/
theorem alGet_foldl_alSet_mem {α β : Type} (f : β → String) (g : β → α) :
    ∀ (l : List β) (b0 : List (String × α)) (k : String),
      (alGet k (l.foldl (fun b x => alSet (f x) (g x) b) b0)).isSome = true →
      (alGet k b0).isSome = true ∨ k ∈ l.map f := by
  intro l
  induction l with
  | nil =>
    intro b0 k h
    exact Or.inl h
  | cons x xs ih =>
    intro b0 k h
    rw [List.foldl_cons] at h
    rcases ih (alSet (f x) (g x) b0) k h with h2 | h2
    · rcases alGet_alSet_isSome k (f x) (g x) b0 h2 with h3 | h3
      · right
        simp [h3]
      · exact Or.inl h3
    · right
      simp [h2]

/-- The canonical fill loop preserves present keys. -/
theorem alFill_preserve {α : Type} (dflt : α) :
    ∀ (ks : List String) (b0 : List (String × α)) (k : String),
      (alGet k b0).isSome = true →
      (alGet k (ks.foldl (fun b k2 =>
        if (alGet k2 b).isSome then b else alSet k2 dflt b) b0)).isSome = true := by
  intro ks
  induction ks with
  | nil => intro b0 k h; exact h
  | cons k1 krest ih =>
    intro b0 k h
    rw [List.foldl_cons]
    apply ih
    by_cases hk : (alGet k1 b0).isSome = true
    · rw [if_pos hk]
      exact h
    · rw [if_neg hk]
      by_cases he : k = k1
      · subst he
        rw [alGet_alSet_self]
        rfl
      · rwa [alGet_alSet_other k k1 dflt (fun hx => he hx.symm) b0]

/-- After the fill loop every listed key is present. -/
theorem alFill_mem {α : Type} (dflt : α) :
    ∀ (ks : List String) (b0 : List (String × α)) (k : String), k ∈ ks →
      (alGet k (ks.foldl (fun b k2 =>
        if (alGet k2 b).isSome then b else alSet k2 dflt b) b0)).isSome = true := by
  intro ks
  induction ks with
  | nil => intro b0 k h; exact absurd h (List.not_mem_nil k)
  | cons k1 krest ih =>
    intro b0 k h
    rw [List.foldl_cons]
    rcases List.mem_cons.mp h with rfl | h2
    · apply alFill_preserve
      by_cases hk : (alGet k b0).isSome = true
      · rw [if_pos hk]
        exact hk
      · rw [if_neg hk, alGet_alSet_self]
        rfl
    · exact ih _ k h2

set_option maxHeartbeats 1000000 in
/-- C2 (amended): the estimated-taxes map carries all six canonical
jurisdiction keys whenever the estimated-taxes table is located and has
at least three non-empty rows — the fill loop synthesizes "N/A" entries
for absent jurisdictions; but when the section is missing (or too short)
that map is the empty dict, and the exemptions-by-jurisdiction map never
synthesizes anything: its keys all come from the page's own column
headers (normalized), so canonical keys absent from the page are absent
from the map (see the counterexample). -/
theorem C2_amended_jurisdiction_keys (tbl : HtmlTable) (span : Option String)
    (h3 : 3 ≤ (tbl.filter (fun r => r ≠ [])).length) :
    (∀ j ∈ canonicalJurisdictions,
      (alGet j (parse_estimated_taxes (some tbl) span).1).isSome = true) ∧
    (∀ (ex : ExTable) (k : String),
      (alGet k (parse_exemptions_sections (some ex))).isSome = true →
      k ∈ ((ex.rows.headD []).drop 1).map (fun c => normJurKey (clean_text c.text))) := by
  constructor
  · intro j hj
    have hlt : ¬ ((tbl.filter (fun r => r ≠ [])).length < 3) := by omega
    simp only [parse_estimated_taxes]
    rw [if_neg hlt]
    exact alFill_mem _ canonicalJurisdictions _ j hj
  · intro ex k h
    simp only [parse_exemptions_sections] at h
    by_cases hlen : ex.rows.length < 3
    · rw [if_pos hlen] at h
      simp [alGet] at h
    · rw [if_neg hlen] at h
      have h2 := alGet_foldl_alSet_mem (fun ic : Nat × String => normJurKey ic.2) _ _ _ _ h
      rcases h2 with h2 | h2
      · simp [alGet] at h2
      · have h3 : (((ex.rows.headD []).map (fun c => clean_text c.text)).drop 1).map
            normJurKey = ((ex.rows.headD []).drop 1).map (fun c => normJurKey (clean_text c.text)) := by
          rw [← List.map_drop, List.map_map]
          rfl
        rw [← h3]
        have h4 : (((ex.rows.headD []).map (fun c => clean_text c.text)).drop 1).enum.map
            (fun ic : Nat × String => normJurKey ic.2) =
            (((ex.rows.headD []).map (fun c => clean_text c.text)).drop 1).map normJurKey := by
          have h5 := List.enum_map_snd
            (((ex.rows.headD []).map (fun c => clean_text c.text)).drop 1)
          calc _ = ((((ex.rows.headD []).map (fun c => clean_text c.text)).drop 1).enum.map
                Prod.snd).map normJurKey := by rw [List.map_map]; rfl
            _ = _ := by rw [h5]
        rw [h4] at h2
        exact h2

/-- Concrete instantiation of C2_amended_jurisdiction_keys: a three-row
estimated-taxes table always yields a "city" entry, and an exemptions
table whose only column is City yields only the key "city". -/
theorem C2_amended_jurisdiction_keys_witness :
    (alGet "city" (parse_estimated_taxes (some
      [[⟨"", true, ""⟩, ⟨"City", true, ""⟩],
       [⟨"Taxing Jurisdiction", true, ""⟩, ⟨"DALLAS", false, ""⟩],
       [⟨"Tax Rate Per $100", true, ""⟩, ⟨"0.7", false, ""⟩]]) none).1).isSome = true :=
  (C2_amended_jurisdiction_keys
    [[⟨"", true, ""⟩, ⟨"City", true, ""⟩],
     [⟨"Taxing Jurisdiction", true, ""⟩, ⟨"DALLAS", false, ""⟩],
     [⟨"Tax Rate Per $100", true, ""⟩, ⟨"0.7", false, ""⟩]] none (by decide)).1
    "city" (by decide)

/-- C2 fails as stated: a document without an estimated-taxes section
yields the empty map (reading "city" fails), and an exemptions table
whose only column is City yields a map without the other five canonical
keys (reading "school" fails) — no synthesis happens there. -/
theorem C2_counterexample :
    (parse_estimated_taxes none none).1 = [] ∧
    alGet "city" (parse_estimated_taxes none none).1 = none ∧
    alGet "school" (parse_exemptions_sections (some
      ⟨[[⟨"", true, ""⟩, ⟨"City", true, ""⟩],
        [⟨"Taxing Jurisdiction", true, ""⟩, ⟨"City of Dallas", false, ""⟩],
        [⟨"Homestead", true, ""⟩, ⟨"$0", false, ""⟩]], []⟩)) = none ∧
    (alGet "city" (parse_exemptions_sections (some
      ⟨[[⟨"", true, ""⟩, ⟨"City", true, ""⟩],
        [⟨"Taxing Jurisdiction", true, ""⟩, ⟨"City of Dallas", false, ""⟩],
        [⟨"Homestead", true, ""⟩, ⟨"$0", false, ""⟩]], []⟩))).isSome = true := by
  exact ⟨rfl, rfl, by decide, by decide⟩

/-! ### Claim C8: grid rows and the improvement-number key -/

/-- _NAV_WORDS (scraper/dcad/parse_detail.py lines 59-62). -/
def NAV_WORDS : List String :=
  ["navigation", "links", "link", "map", "property map",
   "print", "help", "disclaimer", "version", "top", "return"]

def hasNavWord (s : String) : Bool := NAV_WORDS.any (fun w => strContains s w)

/-- _headers_lower (lines 26-36) on the flat table model: the first row's
cell texts, lowercased, empty ones dropped (the thead branch coincides
with the first-row branch here). -/
def headers_lower (t : HtmlTable) : List String :=
  ((t.headD []).map (fun c => asciiLower c.text)).filter (fun h => h ≠ "")

/-- _is_nav_like_table (lines 64-75). -/
def is_nav_like_table (t : HtmlTable) : Bool :=
  if hasNavWord (String.intercalate " | " (headers_lower t)) then true
  else
    match t with
    | [] => false
    | tr :: _ =>
      hasNavWord (asciiLower (String.intercalate " " (tr.map (fun c => clean_text c.text))))

/-- The idx helper of parse_additional_improvements (lines 398-403):
first key, in order, contained in some header; the first such header's
index. -/
def idxOf (headers : List String) : List String → Option Nat
  | [] => none
  | k :: ks =>
    match headers.findIdx? (fun h => strContains h k) with
    | some i => some i
    | none => idxOf headers ks

/-- tds[i] if the column index resolved and is in range. -/
def cellAt (tds : List String) (i : Option Nat) : Option String :=
  match i with
  | some j => if j < tds.length then some (tds.getD j "") else none
  | none => none

/-- int() applied to a Decimal: truncation toward zero for finite values;
NaN and infinity raise (None here, becoming the ValueError branch). -/
def decTruncInt : PyDec → Option Int
  | .num neg c e =>
    let mag : Nat := if 0 ≤ e then c * 10 ^ e.toNat else c / 10 ^ (-e).toNat
    some (if neg then -(mag : Int) else (mag : Int))
  | _ => none

/-- One emitted entry of parse_additional_improvements (lines 429-447). -/
structure AddlRow where
  imp_num : String
  imp_type : String
  imp_desc : Option String
  year_built : Option PyDec
  construction : String
  floor_type : String
  ext_wall : String
  num_stories : Option PyDec
  area_size : String
  value : Option String
  depreciation : Option String
  area_sqft : Option PyDec
deriving DecidableEq

/-- The resolved column indices of lines 405-415. -/
structure AddlIdx where
  i_num : Option Nat
  i_type : Option Nat
  i_desc : Option Nat
  i_year : Option Nat
  i_con : Option Nat
  i_floor : Option Nat
  i_wall : Option Nat
  i_stor : Option Nat
  i_area : Option Nat
  i_val : Option Nat
  i_depr : Option Nat

/-- The data-row loop of parse_additional_improvements (lines 417-449):
empty or navigation-like rows are skipped; a row whose improvement-number
cell is absent or fails to_num is skipped (the NOT NULL imp_num
invariant); an emitted row's imp_num is str(int(number)), which raises
ValueError on a non-finite Decimal (the error branch). -/
def addlRows (ix : AddlIdx) : List TRow → Except String (List AddlRow)
  | [] => .ok []
  | tr :: rest =>
    let tds := (tr.filter (fun c => !c.isTh)).map (fun c => clean_text c.text)
    if tds = [] then addlRows ix rest
    else if hasNavWord (asciiLower (String.intercalate " " tds)) then addlRows ix rest
    else
      let number : Option PyDec :=
        match cellAt tds ix.i_num with
        | some s => to_num s
        | none => none
      match number with
      | none => addlRows ix rest
      | some d =>
        match decTruncInt d with
        | none => .error "ValueError"
        | some n =>
          let entry : AddlRow := {
            imp_num := intToString n
            imp_type := (cellAt tds ix.i_type).getD "N/A"
            imp_desc := cellAt tds ix.i_desc
            year_built := match cellAt tds ix.i_year with
              | some s => to_num s
              | none => none
            construction := (cellAt tds ix.i_con).getD "N/A"
            floor_type := (cellAt tds ix.i_floor).getD "N/A"
            ext_wall := (cellAt tds ix.i_wall).getD "N/A"
            num_stories := match cellAt tds ix.i_stor with
              | some s => to_num s
              | none => none
            area_size := (cellAt tds ix.i_area).getD "0"
            value := cellAt tds ix.i_val
            depreciation := cellAt tds ix.i_depr
            area_sqft := to_sqft ((cellAt tds ix.i_area).getD "0") }
          (addlRows ix rest).map (fun l => entry :: l)

/-- parse_additional_improvements (lines 382-451) applied to the located
table (the resolution chain of _resolve_additional_improvements_table is
abstracted as the argument). -/
def parse_additional_improvements (tbl : Option HtmlTable) :
    Except String (List AddlRow) :=
  match tbl with
  | none => .ok []
  | some t =>
    if is_nav_like_table t then .ok []
    else if t.length ≤ 1 then .ok []
    else
      let headers := (t.headD []).map (fun c => asciiLower (clean_text c.text))
      if hasNavWord (String.intercalate " | " headers) then .ok []
      else
        addlRows
          { i_num := idxOf headers ["imp #", "imp#", "imp no", "number", "#"]
            i_type := idxOf headers ["type"]
            i_desc := idxOf headers ["desc"]
            i_year := idxOf headers ["year"]
            i_con := idxOf headers ["construction", "constr"]
            i_floor := idxOf headers ["floor"]
            i_wall := idxOf headers ["ext wall", "exterior wall", "ext. wall", "wall"]
            i_stor := idxOf headers ["stories", "# stories"]
            i_area := idxOf headers ["area size", "area", "sq ft", "sqft", "size"]
            i_val := idxOf headers ["value"]
            i_depr := idxOf headers ["depr", "depreciation"] }
          (t.drop 1)

/-- _t (dcad-scraper parse_detail.py lines 26-33): strip, None when the
result is empty, else collapse internal whitespace runs to one space. -/
def tidy (s : Option String) : Option String :=
  match s with
  | none => none
  | some s0 =>
    let st := stripList s0.data
    if st = [] then none else some (String.mk (collapseWS st))

/-- _intish (dcad-scraper parse_detail.py lines 50-63): strip, None for
empty or "N/A", delete characters outside [0-9-], None for residues ""
and "-", else int() with ValueError mapped to None. -/
def intish (s : Option String) : Option Int :=
  match s with
  | none => none
  | some s0 =>
    let s1 := String.mk (stripList s0.data)
    if s1 = "" ∨ asciiUpper s1 = "N/A" then none
    else
      let cleaned := s1.data.filter (fun c => pyIsDigit c || c = '-')
      if String.mk cleaned ∈ (["", "-"] : List String) then none
      else pyIntParse cleaned

/-- One row dict of _extract_secondary_improvements (lines 552-564). -/
structure SecRow where
  imp_num : Option String
  imp_type : Option String
  imp_desc : Option String
  year_built : Option Int
  construction : Option String
  floor_type : Option String
  ext_wall : Option String
  num_stories : Option PyDec
  area_size : Option Int
  value : Option PyDec
  depreciation : Option PyDec
deriving DecidableEq

/-- The elif chain of lines 515-538 classifying one lowercased header. -/
def secColKey (hl : String) : Option String :=
  if strContains hl "imp" ∧ (strContains hl "no" || strContains hl "#" || strContains hl "num") then
    some "imp_num"
  else if strContains hl "type" then some "imp_type"
  else if strContains hl "desc" then some "imp_desc"
  else if strContains hl "year" ∧ strContains hl "built" then some "year_built"
  else if strContains hl "construction" then some "construction"
  else if strContains hl "floor" then some "floor_type"
  else if (strContains hl "ext" ∧ strContains hl "wall") || strContains hl "exterior" then
    some "ext_wall"
  else if strContains hl "storie" then some "num_stories"
  else if strContains hl "area" || strContains hl "sq ft" || strContains hl "sqft" then
    some "area_size"
  else if strContains hl "value" then some "value"
  else if strContains hl "depreciation" then some "depreciation"
  else none

/-- get(key) of lines 546-550: None when the column is unmapped or out of
range for this row's td cells, else the tidied cell text. -/
def secGet (colmap : List (String × Nat)) (tds : List Cell) (key : String) :
    Option String :=
  match alGet key colmap with
  | none => none
  | some idx =>
    if idx < tds.length then tidy (some ((tds.getD idx ⟨"", false, ""⟩).text))
    else none

/-- any(v is not None and v != "" for v in row.values()). -/
def secRowAny (row : SecRow) : Bool :=
  (match row.imp_num with | some s => s ≠ "" | none => false) ||
  (match row.imp_type with | some s => s ≠ "" | none => false) ||
  (match row.imp_desc with | some s => s ≠ "" | none => false) ||
  row.year_built.isSome ||
  (match row.construction with | some s => s ≠ "" | none => false) ||
  (match row.floor_type with | some s => s ≠ "" | none => false) ||
  (match row.ext_wall with | some s => s ≠ "" | none => false) ||
  row.num_stories.isSome || row.area_size.isSome ||
  row.value.isSome || row.depreciation.isSome

/-- _extract_secondary_improvements (dcad-scraper parse_detail.py lines
474-569) applied to the located table (the header / fallback locator of
lines 479-505 is abstracted as the argument).  The header row builds the
fuzzy column map; every data row with any non-empty value is emitted —
including rows with no parseable improvement number (imp_num stays None
when its column is absent or its cell is empty).  _floatish and
_pct_to_num in the source are textually identical to _money_to_num and
are modelled by it. -/
def extract_secondary_improvements (tbl : Option HtmlTable) : List SecRow :=
  match tbl with
  | none => []
  | some rows =>
    match rows with
    | [] => []
    | hdrRow :: dataRows =>
      let headers := hdrRow.map (fun c => (tidy (some c.text)).getD "")
      let colmap := headers.enum.foldl (fun m ih =>
        match secColKey (asciiLower ih.2) with
        | some key => alSet key ih.1 m
        | none => m) []
      dataRows.foldr (fun tr acc =>
        let tds := tr.filter (fun c => !c.isTh)
        if tds = [] then acc
        else
          let row : SecRow := {
            imp_num := secGet colmap tds "imp_num"
            imp_type := secGet colmap tds "imp_type"
            imp_desc := secGet colmap tds "imp_desc"
            year_built := intish (secGet colmap tds "year_built")
            construction := secGet colmap tds "construction"
            floor_type := secGet colmap tds "floor_type"
            ext_wall := secGet colmap tds "ext_wall"
            num_stories := money_to_num (secGet colmap tds "num_stories")
            area_size := intish (secGet colmap tds "area_size")
            value := money_to_num (secGet colmap tds "value")
            depreciation := money_to_num (secGet colmap tds "depreciation") }
          if secRowAny row then row :: acc else acc) []

theorem addlRows_imp_num (ix : AddlIdx) :
    ∀ (rows : List TRow) (out : List AddlRow), addlRows ix rows = .ok out →
      ∀ r ∈ out, ∃ n : Int, r.imp_num = intToString n := by
  intro rows
  induction rows with
  | nil =>
    intro out hok r hr
    unfold addlRows at hok
    cases hok
    exact absurd hr (List.not_mem_nil r)
  | cons tr rest ih =>
    intro out hok r hr
    simp only [addlRows] at hok
    split at hok
    · exact ih out hok r hr
    · split at hok
      · exact ih out hok r hr
      · split at hok
        · exact ih out hok r hr
        · split at hok
          · cases hok
          · cases hrest : addlRows ix rest with
            | error e =>
              rw [hrest] at hok
              simp [Except.map] at hok
            | ok l =>
              rw [hrest] at hok
              simp only [Except.map] at hok
              cases hok
              rcases List.mem_cons.mp hr with rfl | hr2
              · exact ⟨_, rfl⟩
              · exact ih l hrest r hr2

theorem addlRows_no_imp_col (ix : AddlIdx) (hnone : ix.i_num = none) :
    ∀ rows, addlRows ix rows = .ok [] := by
  intro rows
  induction rows with
  | nil => rfl
  | cons tr rest ih =>
    unfold addlRows
    rw [hnone]
    by_cases h1 : ((tr.filter (fun c => !c.isTh)).map (fun c => clean_text c.text)) = []
    · rw [if_pos h1]
      exact ih
    · rw [if_neg h1]
      by_cases h2 : hasNavWord (asciiLower (String.intercalate " "
          ((tr.filter (fun c => !c.isTh)).map (fun c => clean_text c.text)))) = true
      · rw [if_pos h2]
        exact ih
      · rw [if_neg h2]
        exact ih

/-- C8 (amended): in parse_additional_improvements every emitted grid row
carries a parseable improvement number as its key — imp_num is always
str(int(·)) of a successfully parsed number, and rows whose
improvement-number cell is missing or unparseable are skipped (an absent
improvement-number column yields no rows at all).  The dcad-scraper
copy's _extract_secondary_improvements, by contrast, emits a row whenever
any cell is non-empty, with imp_num = None when the column is absent
(see the counterexample). -/
theorem C8_amended_improvement_number_key :
    (∀ (tbl : Option HtmlTable) (out : List AddlRow),
      parse_additional_improvements tbl = .ok out →
      ∀ r ∈ out, ∃ n : Int, r.imp_num = intToString n) ∧
    (∀ t : HtmlTable,
      idxOf ((t.headD []).map (fun c => asciiLower (clean_text c.text)))
        ["imp #", "imp#", "imp no", "number", "#"] = none →
      parse_additional_improvements (some t) = .ok []) := by
  constructor
  · intro tbl out hok r hr
    match tbl with
    | none =>
      simp only [parse_additional_improvements] at hok
      cases hok
      exact absurd hr (List.not_mem_nil r)
    | some t =>
      simp only [parse_additional_improvements] at hok
      split at hok
      · cases hok
        exact absurd hr (List.not_mem_nil r)
      · split at hok
        · cases hok
          exact absurd hr (List.not_mem_nil r)
        · split at hok
          · cases hok
            exact absurd hr (List.not_mem_nil r)
          · exact addlRows_imp_num _ _ out hok r hr
  · intro t hidx
    simp only [parse_additional_improvements]
    split
    · rfl
    · split
      · rfl
      · split
        · rfl
        · exact addlRows_no_imp_col _ hidx _

/-- Concrete instantiation of C8_amended_improvement_number_key on a
two-row grid: the emitted garage row's key is str(int(1)). -/
theorem C8_amended_improvement_number_key_witness :
    ∃ n : Int,
      (⟨"1", "GARAGE", none, none, "N/A", "N/A", "N/A", none, "400 sqft",
        none, none, some (.num false 400 0)⟩ : AddlRow).imp_num = intToString n :=
  C8_amended_improvement_number_key.1 (some
    [[⟨"Imp #", true, ""⟩, ⟨"Type", true, ""⟩, ⟨"Area", true, ""⟩],
     [⟨"1", false, ""⟩, ⟨"GARAGE", false, ""⟩, ⟨"400 sqft", false, ""⟩]])
    [⟨"1", "GARAGE", none, none, "N/A", "N/A", "N/A", none, "400 sqft",
      none, none, some (.num false 400 0)⟩]
    (by rfl) _ (by simp)

/-- C8 fails as stated for the secondary-improvements grid extractor of
the dcad-scraper copy: a data row whose improvement-number column is
absent is still emitted (its type cell is non-empty), with imp_num =
None — not skipped. -/
theorem C8_counterexample :
    (extract_secondary_improvements (some
      [[⟨"Year Built", true, ""⟩, ⟨"Type", true, ""⟩],
       [⟨"", false, ""⟩, ⟨"SHED", false, ""⟩]])).map SecRow.imp_num = [none] ∧
    (extract_secondary_improvements (some
      [[⟨"Year Built", true, ""⟩, ⟨"Type", true, ""⟩],
       [⟨"", false, ""⟩, ⟨"SHED", false, ""⟩]])).map SecRow.imp_type = [some "SHED"] := by
  exact ⟨by decide, by decide⟩
